import Mathlib

/-
Verification of the agent session orchestrator in src/backend/main.py
(FastAPI backend).  The definitions below are a shallow embedding of the
relevant Python functions: the SSE generator of claude_chat_stream
(main.py lines 906-1017), the session registry endpoints save_session /
list_sessions / delete_session (main.py 734-787), the naming endpoint
claude_name_session (main.py 1477-1516), and the timeout selection of
goose_chat (main.py 1083-1092).

Conventions of the embedding:
- Python JSON values are modelled by the inductive type Json below.
- json.loads is an external library call; a raw stdout line is modelled
  as its text together with the outcome of json.loads on the stripped
  text (an Option Json, none meaning json.JSONDecodeError).  The pair is
  the input of the model; witnesses use consistent pairs.
- Python str.strip() is modelled by String.trim (ASCII whitespace;
  witnesses only use plain spaces).  s[:n] is modelled by taking the
  first n characters.  Python dict access event.get(k, d) on a JSON
  object is modelled by pyGet; calling .get on a non-dict value raises
  in Python, which the model represents as a crash outcome that
  propagates to the outer except-Exception handler exactly as in the
  source.  Crash message strings abstract the Python str(e) text.
- The asyncio scheduling of the generator is deterministic given the
  subprocess behaviour; client cancellation (asyncio.CancelledError) is
  an input of the trace: cancelAfter = some k means the CancelledError
  is delivered at the first await after k stdout lines were processed
  (k past the end of the line list means it arrives while waiting for
  process exit).  When the spawn itself fails, the spawn exception is
  taken to win any race with cancellation.
-/

namespace Sparky

/-- Model of a Python / JSON value as handled by json.loads and
json.dumps in main.py.  Numbers are modelled as integers; no claim
depends on float arithmetic. -/
inductive Json where
  | null
  | bool (b : Bool)
  | num (n : Int)
  | str (s : String)
  | arr (elems : List Json)
  | obj (fields : List (String × Json))
deriving Repr

/-- Dictionary lookup, first matching key (Python dicts have unique
keys; objects built by the model never duplicate keys). -/
def Json.lookup : Json → String → Option Json
  | .obj fs, k => List.lookup k fs
  | _, _ => none

/-- Python: k in event (on a dict). -/
def Json.hasKey (j : Json) (k : String) : Bool := (j.lookup k).isSome

/-- Python truthiness of a JSON value: None, False, 0, empty string,
empty list and empty dict are falsy. -/
def Json.isFalsy : Json → Bool
  | .null => true
  | .bool b => !b
  | .num n => n == 0
  | .str s => s == ""
  | .arr xs => xs.isEmpty
  | .obj fs => fs.isEmpty

/-- Python: event.get(k, dflt) on a dict. -/
def pyGet (j : Json) (k : String) (dflt : Json) : Json := (j.lookup k).getD dflt

/-- Python: event[k] = v on a dict: overwrite in place if the key
exists, else append the new key at the end (insertion order). -/
def setKeyFields (fs : List (String × Json)) (k : String) (v : Json) :
    List (String × Json) :=
  if fs.any (fun p => p.1 == k) then
    fs.map (fun p => if p.1 == k then (k, v) else p)
  else fs ++ [(k, v)]

/-- Python dict assignment lifted to Json (only used on objects). -/
def Json.setKey : Json → String → Json → Json
  | .obj fs, k, v => .obj (setKeyFields fs k v)
  | j, _, _ => j

/-- Python: s[:n]. -/
def pyTake (s : String) (n : Nat) : String := ⟨s.data.take n⟩

/-- Python: s.strip() with no argument, dropping ASCII whitespace from
both ends (the additional Unicode whitespace Python strips is not
exercised by any claim). -/
def pyStrip (s : String) : String :=
  ⟨((s.data.dropWhile Char.isWhitespace).reverse.dropWhile
      Char.isWhitespace).reverse⟩

/- ===== Outward SSE event objects (the dict literals of the yield
statements in claude_chat_stream.generate, main.py 928-1017, with field
order as written in the source). ===== -/

/-- main.py 928: the init frame. -/
def initEvent : Json :=
  .obj [("type", .str "init"), ("message", .str "Starting Claude Code...")]

/-- main.py 966 and 998: a message frame. -/
def msgEvent (text sid : Json) : Json :=
  .obj [("type", .str "message"), ("text", text), ("session_id", sid)]

/-- main.py 969: a tool_use frame. -/
def toolUseEvent (tool sid : Json) : Json :=
  .obj [("type", .str "tool_use"), ("tool", tool), ("session_id", sid)]

/-- main.py 978: the result frame. -/
def resultEvent (res sid cost : Json) (durationMs : Nat) : Json :=
  .obj [("type", .str "result"), ("result", res), ("session_id", sid),
        ("cost_usd", cost), ("duration_ms", .num (Int.ofNat durationMs))]

/-- main.py 982, 1007, 1017: an error frame. -/
def errEvent (err sid : Json) : Json :=
  .obj [("type", .str "error"), ("error", err), ("session_id", sid)]

/-- main.py 988: a system frame. -/
def sysEvent (m sid : Json) : Json :=
  .obj [("type", .str "system"), ("message", m), ("session_id", sid)]

/-- main.py 1011: the done frame. -/
def doneEvent (sid : Json) (durationMs : Nat) : Json :=
  .obj [("type", .str "done"), ("session_id", sid),
        ("duration_ms", .num (Int.ofNat durationMs))]

/-- main.py 1015: the cancelled frame. -/
def cancelledEvent (sid : Json) : Json :=
  .obj [("type", .str "cancelled"), ("session_id", sid)]

/- ===== The request model (pydantic ClaudeCodeRequest, main.py 59-62)
===== -/

/-- pydantic model ClaudeCodeRequest (main.py 59-62): message is a
required string, session_id and allowed_tools are optional. -/
structure ClaudeCodeRequest where
  message : String
  session_id : Option String := none
  allowed_tools : Option (List String) := none
deriving Repr, DecidableEq

/-- A JSON field that pydantic accepts for Optional[str]: absent or
null become none, a string becomes some.  Other shapes are a validation
error.  (pydantic coercions of non-string scalars are abstracted away;
no claim depends on them.) -/
def optStrField : Option Json → Option (Option String)
  | none => some none
  | some .null => some none
  | some (.str s) => some (some s)
  | some _ => none

/-- Element-wise string extraction for Optional[List[str]]. -/
def asStr : Json → Option String
  | .str s => some s
  | _ => none

/-- A JSON field that pydantic accepts for Optional[List[str]]. -/
def optStrListField : Option Json → Option (Option (List String))
  | none => some none
  | some .null => some none
  | some (.arr xs) => (xs.mapM asStr).map some
  | some _ => none

/-- Request-body validation performed by FastAPI / pydantic for
ClaudeCodeRequest: the message key must be present with a string value;
there is no non-emptiness constraint.  Returns none on a 422
validation error. -/
def validateClaudeCodeRequest (body : List (String × Json)) :
    Option ClaudeCodeRequest := do
  let m ← match List.lookup "message" body with
          | some (.str s) => some s
          | _ => none
  let sid ← optStrField (List.lookup "session_id" body)
  let tools ← optStrListField (List.lookup "allowed_tools" body)
  some ⟨m, sid, tools⟩

/-- Path of the claude executable (main.py 85; os.path.expanduser is
abstracted to the literal path). -/
def claudePath : String := "~/.local/bin/claude"

/-- The argument vector built by claude_chat_stream.generate
(main.py 913-925). -/
def buildCmd (req : ClaudeCodeRequest) : List String :=
  [claudePath, "-p", req.message, "--output-format", "stream-json",
   "--verbose", "--dangerously-skip-permissions"]
  ++ (match req.session_id with
      | some s => ["--resume", s]
      | none => [])
  ++ (match req.allowed_tools with
      | some ts => ["--allowedTools", String.intercalate "," ts]
      | none => [])

/- ===== The subprocess trace: the input of one invocation ===== -/

/-- One raw stdout line of the subprocess: its decoded text (without
the trailing newline) and the outcome of json.loads on the stripped
text (none = json.JSONDecodeError), plus the wall-clock milliseconds
elapsed since invocation start when the line is processed (read by the
duration_ms computation of a result frame, main.py 975). -/
structure InLine where
  text : String
  parsed : Option Json
  atMs : Nat
deriving Repr

/-- The externally-determined behaviour of one invocation: whether the
spawn raised (some msg = the str(e) of the spawn exception, e.g. a
FileNotFoundError), the stdout lines delivered before EOF, the point at
which a client cancellation is delivered (none = never), the exit
status, the accumulated stderr text, and the elapsed milliseconds when
the done frame is produced (main.py 1010). -/
structure Trace where
  spawn : Option String
  lines : List InLine
  cancelAfter : Option Nat
  returncode : Int
  stderr : String
  endMs : Nat
deriving Repr

/-- The running session id: request.session_id is a Python Optional
string, None when absent (main.py 909). -/
def sidInit (req : ClaudeCodeRequest) : Json :=
  match req.session_id with
  | none => .null
  | some s => .str s

/-- Outcome of handling one stdout line: either the events yielded and
the updated running session id, or a crash (an exception other than
json.JSONDecodeError escaping to the outer except-Exception handler,
main.py 1016) together with the events already yielded. -/
inductive LineOut where
  | ok (evs : List Json) (sid : Json)
  | crash (evs : List Json) (sid : Json) (msg : String)
deriving Repr

/-- Prepend an already-yielded event to a line outcome. -/
def LineOut.consEv (ev : Json) : LineOut → LineOut
  | .ok evs s => .ok (ev :: evs) s
  | .crash evs s m => .crash (ev :: evs) s m

/-- The events yielded while handling one line. -/
def LineOut.events : LineOut → List Json
  | .ok evs _ => evs
  | .crash evs _ _ => evs

/-- The running session id after handling one line. -/
def LineOut.sid : LineOut → Json
  | .ok _ s => s
  | .crash _ s _ => s

/-- The inner for-loop over content blocks of an assistant event
(main.py 962-969).  A block that is not a dict raises AttributeError at
block.get. -/
def processBlocks (blocks : List Json) (sid : Json) : LineOut :=
  match blocks with
  | [] => .ok [] sid
  | b :: rest =>
    match b with
    | .obj _ =>
      match b.lookup "type" with
      | some (.str t) =>
        if t = "text" then
          (processBlocks rest sid).consEv (msgEvent (pyGet b "text" (.str "")) sid)
        else if t = "tool_use" then
          (processBlocks rest sid).consEv
            (toolUseEvent (pyGet b "name" (.str "unknown")) sid)
        else processBlocks rest sid
      | _ => processBlocks rest sid
    | _ => .crash [] sid "AttributeError"

/-- The assistant branch (main.py 958-969).  event.get returns the
default dict / list when the key is absent; a present non-dict message
raises AttributeError at message.get; iterating a non-list content
value raises unless it is empty (Python iterates the characters of a
string and the keys of a dict, both of which then raise at block.get
when nonempty). -/
def handleAssistant (j : Json) (sid : Json) : LineOut :=
  match j.lookup "message" with
  | none => .ok [] sid
  | some (.obj mf) =>
    match List.lookup "content" mf with
    | none => .ok [] sid
    | some (.arr blocks) => processBlocks blocks sid
    | some (.str s) => if s.isEmpty then .ok [] sid else .crash [] sid "AttributeError"
    | some (.obj bf) => if bf.isEmpty then .ok [] sid else .crash [] sid "AttributeError"
    | some _ => .crash [] sid "TypeError"
  | some _ => .crash [] sid "AttributeError"

/-- Handling of one successfully decoded stream-json event
(main.py 950-993).  event.get on a non-dict decode result (for example
the line 5, a valid JSON number) raises AttributeError at line 951.
For a dict, the session id is captured from any event that has the key
while the running id is still falsy (main.py 953-955), then the event
is dispatched on its type tag. -/
def processEvent (j : Json) (sid : Json) (t : Nat) : LineOut :=
  match j with
  | .obj _ =>
    let sid1 := if j.hasKey "session_id" && sid.isFalsy then
                  (j.lookup "session_id").getD .null
                else sid
    match j.lookup "type" with
    | some (.str et) =>
      if et = "assistant" then handleAssistant j sid1
      else if et = "result" then
        .ok [resultEvent (pyGet j "result" (.str ""))
               (pyGet j "session_id" sid1)
               (pyGet j "total_cost_usd" (.num 0)) t] sid1
      else if et = "error" then
        (match j.lookup "error" with
         | none => .ok [errEvent (.str "Unknown error") sid1] sid1
         | some (.obj ef) =>
           .ok [errEvent (pyGet (.obj ef) "message" (.str "Unknown error")) sid1] sid1
         | some _ => .crash [] sid1 "AttributeError")
      else if et = "system" then
        let m := pyGet j "message" (.str "")
        if m.isFalsy then .ok [] sid1 else .ok [sysEvent m sid1] sid1
      else .ok [j.setKey "session_id" sid1] sid1
    | _ => .ok [j.setKey "session_id" sid1] sid1
  | _ => .crash [] sid "AttributeError"

/-- The effective session id computed at the top of one decoded event
(main.py 953-955): adopted from the event only while the running id is
still falsy. -/
def stepSid (j sid : Json) : Json :=
  if j.hasKey "session_id" && sid.isFalsy then
    (j.lookup "session_id").getD .null
  else sid

/-- Handling of one raw stdout line (main.py 944-998): strip, skip if
empty, otherwise dispatch on the json.loads outcome; a decode failure
forwards the stripped text as a message frame. -/
def processLine (l : InLine) (sid : Json) : LineOut :=
  if pyStrip l.text = "" then .ok [] sid
  else
    match l.parsed with
    | none => .ok [msgEvent (.str (pyStrip l.text)) sid] sid
    | some j => processEvent j sid l.atMs

/-- Outcome of the whole read loop. -/
inductive RunOut where
  | eof (evs : List Json) (sid : Json)
  | crashed (evs : List Json) (sid : Json) (msg : String)
  | cancelled (evs : List Json) (sid : Json)
deriving Repr

/-- The events accumulated by a read-loop outcome. -/
def RunOut.events : RunOut → List Json
  | .eof evs _ => evs
  | .crashed evs _ _ => evs
  | .cancelled evs _ => evs

/-- The running session id of a read-loop outcome. -/
def RunOut.sid : RunOut → Json
  | .eof _ s => s
  | .crashed _ s _ => s
  | .cancelled _ s => s

/-- Whether the read loop ended in an exception escaping to the outer
handler. -/
def RunOut.isCrash : RunOut → Bool
  | .crashed _ _ _ => true
  | _ => false

/-- The read loop of main.py 939-998, with the cancellation budget
counting processed lines: an exhausted budget means the CancelledError
arrives at the next await (a pending readline, or the process wait
after EOF). -/
def runLines (ls : List InLine) (sid : Json) (fuel : Option Nat) : RunOut :=
  if fuel = some 0 then .cancelled [] sid
  else
    match ls with
    | [] => .eof [] sid
    | l :: rest =>
      match processLine l sid with
      | .ok evs sid1 =>
        match runLines rest sid1 (fuel.map (fun n => n - 1)) with
        | .eof evs2 sid2 => .eof (evs ++ evs2) sid2
        | .crashed evs2 sid2 m => .crashed (evs ++ evs2) sid2 m
        | .cancelled evs2 sid2 => .cancelled (evs ++ evs2) sid2
      | .crash evs sid1 m => .crashed evs sid1 m

/-- Result of one full run of the SSE generator: the outward event
objects in order, and whether the subprocess spawn was attempted. -/
structure GenResult where
  events : List Json
  spawned : Bool
deriving Repr

/-- The async generator of claude_chat_stream (main.py 906-1017):
yields init, spawns, translates each stdout line, then after EOF waits
for the process, surfaces stderr of a failed exit as an error frame
(main.py 1003-1007, only when stderr is nonempty), and yields the done
frame; a CancelledError ends the stream with a cancelled frame and any
other exception (including a spawn failure) with an error frame. -/
def generate (req : ClaudeCodeRequest) (tr : Trace) : GenResult :=
  match tr.spawn with
  | some msg => ⟨[initEvent, errEvent (.str msg) (sidInit req)], true⟩
  | none =>
    match runLines tr.lines (sidInit req) tr.cancelAfter with
    | .crashed evs sid m => ⟨initEvent :: evs ++ [errEvent (.str m) sid], true⟩
    | .cancelled evs sid => ⟨initEvent :: evs ++ [cancelledEvent sid], true⟩
    | .eof evs sid =>
      ⟨initEvent :: evs
        ++ (if tr.returncode ≠ 0 ∧ tr.stderr ≠ "" then
              [errEvent (.str (pyStrip tr.stderr)) sid] else [])
        ++ [doneEvent sid tr.endMs], true⟩

/- ===== SSE wire serialization (main.py yields of the form
"data: " + json.dumps(obj) + two newlines) ===== -/

/-- One lowercase hex digit (used by the control-character escapes of
json.dumps). -/
def hexDigit (n : Nat) : Char :=
  if n ≤ 9 then Char.ofNat (48 + n)
  else if n ≤ 15 then Char.ofNat (87 + n)
  else Char.ofNat 102

/-- Escaping of one character inside a JSON string literal, as
json.dumps does: backslash, double quote, and the named control
characters get two-character escapes, other control characters get a
six-character \u00XX escape, everything else is emitted literally.
(The default ensure_ascii escaping of characters above 0x7e is an
abstraction this model drops; it affects no structural property.) -/
def escChar (c : Char) : List Char :=
  if c = Char.ofNat 92 then [Char.ofNat 92, Char.ofNat 92]
  else if c = Char.ofNat 34 then [Char.ofNat 92, Char.ofNat 34]
  else if c = Char.ofNat 10 then [Char.ofNat 92, Char.ofNat 110]
  else if c = Char.ofNat 13 then [Char.ofNat 92, Char.ofNat 114]
  else if c = Char.ofNat 9 then [Char.ofNat 92, Char.ofNat 116]
  else if c = Char.ofNat 8 then [Char.ofNat 92, Char.ofNat 98]
  else if c = Char.ofNat 12 then [Char.ofNat 92, Char.ofNat 102]
  else if c.toNat < 32 then
    [Char.ofNat 92, Char.ofNat 117, Char.ofNat 48, Char.ofNat 48,
     hexDigit (c.toNat / 16), hexDigit (c.toNat % 16)]
  else [c]

/-- Escaped body of a JSON string literal. -/
def escStr (s : String) : List Char := s.data.flatMap escChar

/-- The decimal digit character of n mod 10. -/
def digitChar (n : Nat) : Char := Char.ofNat (48 + n % 10)

/-- Decimal representation of a natural number. -/
def natChars (n : Nat) : List Char :=
  if h : n < 10 then [digitChar n]
  else natChars (n / 10) ++ [digitChar n]
decreasing_by exact Nat.div_lt_self (by omega) (by omega)

/-- Decimal representation of an integer, as json.dumps emits it. -/
def intChars (n : Int) : List Char :=
  if n < 0 then Char.ofNat 45 :: natChars n.natAbs else natChars n.natAbs

/-- A JSON string literal, with the surrounding double quotes. -/
def strLit (s : String) : List Char :=
  Char.ofNat 34 :: escStr s ++ [Char.ofNat 34]

mutual

/-- json.dumps with its default separators, as a character list. -/
def dumpsL : Json → List Char
  | .null => "null".data
  | .bool true => "true".data
  | .bool false => "false".data
  | .num n => intChars n
  | .str s => strLit s
  | .arr xs => Char.ofNat 91 :: dumpsArr xs ++ [Char.ofNat 93]
  | .obj fs => Char.ofNat 123 :: dumpsObj fs ++ [Char.ofNat 125]

/-- Array elements, separated by a comma and a space. -/
def dumpsArr : List Json → List Char
  | [] => []
  | [x] => dumpsL x
  | x :: xs => dumpsL x ++ (", ".data ++ dumpsArr xs)

/-- Object entries, key colon value, separated by a comma and a
space. -/
def dumpsObj : List (String × Json) → List Char
  | [] => []
  | [(k, v)] => strLit k ++ (": ".data ++ dumpsL v)
  | (k, v) :: fs => strLit k ++ (": ".data ++ dumpsL v) ++ (", ".data ++ dumpsObj fs)

end

/-- json.dumps as a String. -/
def dumps (j : Json) : String := ⟨dumpsL j⟩

/-- One SSE frame as written to the client: the data: prefix, the
single-line JSON object, and the blank line that terminates the frame
(main.py 928 and the other yield statements). -/
def sseFrame (j : Json) : String := "data: " ++ dumps j ++ "\n\n"

/-- The byte stream of a whole invocation: one frame per outward
event, in order. -/
def wire (evs : List Json) : List String := evs.map sseFrame

/- ===== Session registry (main.py 112-127 and 734-787).  The
persisted JSON document has shape sessions: [entry, ...]; the model
carries its session list directly and passes the persisted state
explicitly instead of reading and writing the file. ===== -/

/-- One entry of the persisted session registry (main.py 760-766). -/
structure SessionEntry where
  session_id : String
  name : String
  first_message : String
  created_at : String
  updated_at : String
deriving Repr, DecidableEq

/-- Body of the save-session endpoint (pydantic SaveSessionRequest,
main.py 73-76). -/
structure SaveSessionRequest where
  session_id : String
  name : String
  first_message : Option String := none
deriving Repr, DecidableEq

/-- Apply the in-place update of main.py 752-757 to the first entry
matching the id, leaving everything else untouched. -/
def updateFirst (l : List SessionEntry) (id : String)
    (f : SessionEntry → SessionEntry) : List SessionEntry :=
  match l with
  | [] => []
  | s :: rest =>
    if s.session_id = id then f s :: rest else s :: updateFirst rest id f

/-- The mutation of one matched entry (main.py 752-757): name and
updated_at always change; first_message only when the request supplied
a truthy (non-empty) one. -/
def updateEntry (req : SaveSessionRequest) (now : String)
    (s : SessionEntry) : SessionEntry :=
  { s with
    name := req.name
    updated_at := now
    first_message :=
      match req.first_message with
      | some f => if f = "" then s.first_message else f
      | none => s.first_message }

/-- save_session (main.py 741-770): update the first entry with the
requested id if one exists, else append a new entry; now stands for
datetime.now().isoformat(). -/
def save_session (sessions : List SessionEntry) (req : SaveSessionRequest)
    (now : String) : List SessionEntry :=
  if sessions.any (fun s => s.session_id = req.session_id) then
    updateFirst sessions req.session_id (updateEntry req now)
  else
    sessions ++ [{ session_id := req.session_id
                   name := req.name
                   first_message := req.first_message.getD ""
                   created_at := now
                   updated_at := now }]

/-- list_sessions (main.py 734-738): returns the stored list as-is. -/
def list_sessions (sessions : List SessionEntry) : List SessionEntry :=
  sessions

/-- delete_session (main.py 773-787): filter out the id; when nothing
was removed, raise HTTPException 404 before any write, leaving the
persisted document unchanged.  The result pairs the persisted document
after the call with the response (error status or deleted id). -/
def delete_session (doc : List SessionEntry) (session_id : String) :
    List SessionEntry × Except Nat String :=
  if (doc.filter (fun s => s.session_id ≠ session_id)).length = doc.length then
    (doc, .error 404)
  else (doc.filter (fun s => s.session_id ≠ session_id), .ok session_id)

/- ===== Session naming (claude_name_session, main.py 1477-1516) ===== -/

/-- Externally-determined outcome of the one-shot naming subprocess:
it either times out at the 60 second wait_for bound, completes with an
exit status and a stdout whose json.loads outcome is given (none =
JSONDecodeError), or raises some other exception. -/
inductive NameOutcome where
  | timeout
  | completed (rc : Int) (stdout : Option Json)
  | exn (msg : String)
deriving Repr

/-- Response body of the name-session endpoints. -/
structure NameResponse where
  success : Bool
  name : String
  error : Option String := none
deriving Repr, DecidableEq

/-- Python str.strip with an explicit character set, used by
name.strip applied to quote characters (main.py 1503). -/
def stripSet (s : String) (cs : List Char) : String :=
  ⟨((s.data.dropWhile (fun c => cs.contains c)).reverse.dropWhile
      (fun c => cs.contains c)).reverse⟩

/-- The two quote characters stripped from a generated name. -/
def quoteChars : List Char := [Char.ofNat 34, Char.ofNat 39]

/-- The non-timeout fallback name (main.py 1507-1510): the first 30
characters, stripped, with three dots appended when the first message
is longer than 30 characters. -/
def fallbackName (firstMessage : String) : String :=
  let fb := pyStrip (pyTake firstMessage 30)
  if firstMessage.length > 30 then fb ++ "..." else fb

/-- claude_name_session (main.py 1477-1516).  On a zero exit with a
JSON object stdout, the generated name is result.get with cleanup
(strip, strip quotes, strip, first 50 characters) and is used when
nonempty; otherwise the fallback with the dots suffix.  A timeout
returns the first 30 characters stripped, with no dots suffix
(main.py 1512-1514).  Any other exception returns success False with
the raw first 30 characters. -/
def claude_name_session (firstMessage : String) (out : NameOutcome) :
    NameResponse :=
  match out with
  | .timeout => { success := true, name := pyStrip (pyTake firstMessage 30) }
  | .exn m =>
    { success := false, name := pyTake firstMessage 30, error := some m }
  | .completed rc stdout =>
    if rc = 0 then
      match stdout with
      | some (.obj fs) =>
        (match List.lookup "result" fs with
         | some (.str s) =>
           let nm := pyTake (pyStrip (stripSet (pyStrip s) quoteChars)) 50
           if nm = "" then { success := true, name := fallbackName firstMessage }
           else { success := true, name := nm }
         | some _ =>
           { success := false, name := pyTake firstMessage 30,
             error := some "AttributeError" }
         | none => { success := true, name := fallbackName firstMessage })
      | some _ =>
        { success := false, name := pyTake firstMessage 30,
          error := some "AttributeError" }
      | none =>
        { success := false, name := pyTake firstMessage 30,
          error := some "JSONDecodeError" }
    else { success := true, name := fallbackName firstMessage }

/- ===== goose_chat timeout selection (main.py 1083-1084) ===== -/

/-- The hard wall-clock budget of the non-streaming goose_chat
endpoint, in seconds: 600 for the research mode, 180 otherwise
(main.py 1084). -/
def goose_timeout (mode : String) : Nat :=
  if mode = "research" then 600 else 180

/- ===== Inspection helpers for outward frames ===== -/

/-- Whether the type field of a frame is the given string. -/
def typeIs (e : Json) (s : String) : Bool :=
  match e.lookup "type" with
  | some (.str t) => t == s
  | _ => false

/-- A terminal frame: type done or type cancelled. -/
def isTerminalType (e : Json) : Bool := typeIs e "done" || typeIs e "cancelled"

/-- An init-typed frame. -/
def isInitType (e : Json) : Bool := typeIs e "init"

/-- A stdout line that cannot spoof the stream framing: when it
decodes, its type tag is not init, done or cancelled (such tags are
unhandled by the translator and would be forwarded verbatim). -/
def lineSpoofFree (l : InLine) : Bool :=
  match l.parsed with
  | some j => !(typeIs j "init" || typeIs j "done" || typeIs j "cancelled")
  | none => true

/-- All lines of a run are spoof-free. -/
def spoofFree (ls : List InLine) : Bool := ls.all lineSpoofFree

/- ===== Concrete fixtures used by the counterexamples and
witnesses ===== -/

/-- A plain request with no resume hint. -/
def reqHello : ClaudeCodeRequest := { message := "hello" }

/-- A request carrying a caller-supplied resume hint. -/
def reqHint : ClaudeCodeRequest := { message := "hello", session_id := some "hint" }

/-- A run whose spawn raises (executable missing). -/
def trSpawnFail : Trace :=
  { spawn := some "FileNotFoundError", lines := [], cancelAfter := none,
    returncode := 1, stderr := "", endMs := 5 }

/-- A run whose only stdout line is whitespace. -/
def trBlank : Trace :=
  { spawn := none, lines := [⟨"   ", none, 0⟩], cancelAfter := none,
    returncode := 0, stderr := "", endMs := 9 }

/-- A run with no stdout at all and a clean exit. -/
def trEmpty : Trace :=
  { spawn := none, lines := [], cancelAfter := none,
    returncode := 0, stderr := "", endMs := 0 }

/-- A run whose subprocess reports session id S1 in its result
event. -/
def trResultS1 : Trace :=
  { spawn := none,
    lines := [⟨"res", some (.obj [("type", .str "result"),
                                  ("session_id", .str "S1")]), 3⟩],
    cancelAfter := none, returncode := 0, stderr := "", endMs := 9 }

/-- A run whose subprocess keeps running for ten seconds before a
clean exit with no further output. -/
def trSleep : Trace :=
  { spawn := none, lines := [], cancelAfter := none,
    returncode := 0, stderr := "", endMs := 10000 }

/-- A run whose only stdout line decodes to a JSON object with no type
field. -/
def trNoType : Trace :=
  { spawn := none, lines := [⟨"\x7b\"foo\": 1\x7d", some (.obj [("foo", .num 1)]), 7⟩],
    cancelAfter := none, returncode := 0, stderr := "", endMs := 9 }

/-- A run whose only stdout line is plain text that is not JSON. -/
def trRaw : Trace :=
  { spawn := none, lines := [⟨"plain output", none, 2⟩], cancelAfter := none,
    returncode := 0, stderr := "", endMs := 4 }

/-- A first message of forty letters. -/
def fm40 : String := String.mk (List.replicate 40 (Char.ofNat 97))

/-- The first thirty letters of fm40. -/
def fm30 : String := String.mk (List.replicate 30 (Char.ofNat 97))

/- ===================================================================
   Theorems
   =================================================================== -/

/-- C1 counterexample: on the spawn-failure path the outward sequence
is init followed by a single error frame; the last frame is not a
terminal (done or cancelled) frame, refuting the claim that every
invocation ends with exactly one terminal frame regardless of the
error path taken. -/
theorem C1_counterexample :
    (generate reqHello trSpawnFail).events
      = [initEvent, errEvent (.str "FileNotFoundError") .null]
    ∧ ((generate reqHello trSpawnFail).events.getLast?).map isTerminalType
      = some false := by
  exact ⟨rfl, rfl⟩

/-- C2 counterexample: a stdout line consisting only of whitespace
(which json.loads would reject) is discarded by the read loop with no
frame at all: the stream is just init then done, no message frame
carries its text, refuting that the decoder never discards a line. -/
theorem C2_counterexample :
    (generate reqHello trBlank).events = [initEvent, doneEvent .null 9]
    ∧ (generate reqHello trBlank).events.all
        (fun e => !(typeIs e "message")) = true
    ∧ (generate reqHello trBlank).events.all
        (fun e => (e.lookup "text").isNone) = true := by
  exact ⟨rfl, rfl, rfl⟩

/-- C3 counterexample: with a caller-supplied resume hint, a
subprocess result event reporting session id S1 produces a result
frame carrying S1 while the following done frame still carries the
hint: the subprocess-observed id does not govern subsequent frames and
is not authoritative over the caller hint. -/
theorem C3_counterexample :
    (generate reqHint trResultS1).events
      = [initEvent,
         resultEvent (.str "") (.str "S1") (.num 0) 3,
         doneEvent (.str "hint") 9]
    ∧ (resultEvent (.str "") (.str "S1") (.num 0) 3).lookup "session_id"
      = some (.str "S1")
    ∧ (doneEvent (.str "hint") 9).lookup "session_id" = some (.str "hint")
    ∧ ("hint" : String) ≠ "S1" := by
  refine ⟨rfl, rfl, rfl, by decide⟩

/-- C4 counterexample: the request model accepts an empty message (no
non-emptiness validation exists), and the generator still attempts the
spawn, passing the empty prompt to the executable. -/
theorem C4_counterexample :
    validateClaudeCodeRequest [("message", .str "")]
      = some { message := "" }
    ∧ (generate { message := "" } trEmpty).spawned = true
    ∧ buildCmd { message := "" }
      = [claudePath, "-p", "", "--output-format", "stream-json",
         "--verbose", "--dangerously-skip-permissions"] := by
  exact ⟨rfl, rfl, rfl⟩

/-- C5 counterexample: a subprocess that only exits after ten seconds
produces no error frame at all and a done frame carrying the full ten
seconds: the streaming endpoint enforces no wall-clock budget, so with
a supposed one-second budget the terminal frame arrives at the
ten-second mark with no timeout error before it. -/
theorem C5_counterexample :
    (generate reqHello trSleep).events = [initEvent, doneEvent .null 10000]
    ∧ (generate reqHello trSleep).events.all
        (fun e => !(typeIs e "error")) = true
    ∧ (doneEvent .null 10000).lookup "duration_ms" = some (.num 10000)
    ∧ (10000 : Nat) ≠ 1000 := by
  refine ⟨rfl, rfl, rfl, by decide⟩

/-- C6 counterexample: when the naming invocation times out with a
forty-letter first message, the endpoint returns the first thirty
characters with no dots suffix, not the thirty characters plus the
"..." the claim requires (that suffix is only produced by the
non-timeout fallback). -/
theorem C6_counterexample :
    claude_name_session fm40 .timeout = { success := true, name := fm30 }
    ∧ claude_name_session fm40 .timeout
      ≠ { success := true, name := fm30 ++ "..." } := by
  refine ⟨by decide, by decide⟩

/-- Replacing the first matching entry in place does not change how
many entries match the id, as long as the replacement keeps the id. -/
theorem countP_updateFirst (l : List SessionEntry) (id : String)
    (f : SessionEntry → SessionEntry)
    (hf : ∀ s, (f s).session_id = s.session_id) :
    (updateFirst l id f).countP (fun s => decide (s.session_id = id))
      = l.countP (fun s => decide (s.session_id = id)) := by
  induction l with
  | nil => rfl
  | cons a rest ih =>
    by_cases ha : a.session_id = id
    · simp [updateFirst, ha, List.countP_cons, hf]
    · simp [updateFirst, ha, List.countP_cons, ih]

/-- After save_session, the id occurs exactly once, provided it
occurred at most once before (the registry uniqueness invariant). -/
theorem save_session_count (l : List SessionEntry) (req : SaveSessionRequest)
    (now : String)
    (h : l.countP (fun s => decide (s.session_id = req.session_id)) ≤ 1) :
    (save_session l req now).countP
      (fun s => decide (s.session_id = req.session_id)) = 1 := by
  unfold save_session
  by_cases hany : (l.any (fun s => decide (s.session_id = req.session_id))) = true
  · rw [if_pos hany,
      countP_updateFirst l req.session_id (updateEntry req now) (fun s => rfl)]
    rcases List.any_eq_true.mp hany with ⟨a, ha, hpa⟩
    have hpos : 0 < l.countP (fun s => decide (s.session_id = req.session_id)) :=
      List.countP_pos_iff.mpr ⟨a, ha, hpa⟩
    omega
  · rw [if_neg hany]
    have hzero : l.countP (fun s => decide (s.session_id = req.session_id)) = 0 := by
      refine List.countP_eq_zero.mpr ?_
      intro a ha hpa
      exact hany (List.any_eq_true.mpr ⟨a, ha, hpa⟩)
    simp [List.countP_append, hzero, List.countP_cons]

/-- Every entry of updateFirst that matches the id is the image of an
original entry under the update, when the id was unique. -/
theorem updateFirst_mem (l : List SessionEntry) (id : String)
    (f : SessionEntry → SessionEntry)
    (hc : l.countP (fun s => decide (s.session_id = id)) ≤ 1) :
    ∀ s ∈ updateFirst l id f, s.session_id = id → ∃ s0 ∈ l, s = f s0 := by
  induction l with
  | nil => intro s hs; cases hs
  | cons a rest ih =>
    intro s hs hsid
    by_cases ha : a.session_id = id
    · simp only [updateFirst, if_pos ha] at hs
      rcases List.mem_cons.mp hs with rfl | hs2
      · exact ⟨a, List.mem_cons_self a rest, rfl⟩
      · exfalso
        have hz : rest.countP (fun s => decide (s.session_id = id)) = 0 := by
          have hcc : (a :: rest).countP (fun s => decide (s.session_id = id))
              = rest.countP (fun s => decide (s.session_id = id)) + 1 := by
            simp [List.countP_cons, ha]
          omega
        have := List.countP_eq_zero.mp hz s hs2
        simp [hsid] at this
    · simp only [updateFirst, if_neg ha] at hs
      rcases List.mem_cons.mp hs with rfl | hs2
      · exact absurd hsid ha
      · have hc2 : rest.countP (fun s => decide (s.session_id = id)) ≤ 1 := by
          have hcc : (a :: rest).countP (fun s => decide (s.session_id = id))
              = rest.countP (fun s => decide (s.session_id = id)) := by
            simp [List.countP_cons, ha]
          omega
        rcases ih hc2 s hs2 hsid with ⟨s0, hs0, rfl⟩
        exact ⟨s0, List.mem_cons_of_mem a hs0, rfl⟩

/-- C7: starting from a registry where the id appears at most once,
upserting Name A then Name B for the same id and listing yields
exactly one entry with that id, carrying Name B: the second upsert
updates rather than duplicates and the id stays unique. -/
theorem C7_registry_roundtrip (l : List SessionEntry)
    (reqA reqB : SaveSessionRequest) (t1 t2 : String)
    (hid : reqA.session_id = reqB.session_id)
    (h1 : l.countP (fun s => decide (s.session_id = reqB.session_id)) ≤ 1) :
    (list_sessions (save_session (save_session l reqA t1) reqB t2)).countP
        (fun s => decide (s.session_id = reqB.session_id)) = 1
    ∧ ∀ s ∈ list_sessions (save_session (save_session l reqA t1) reqB t2),
        s.session_id = reqB.session_id → s.name = reqB.name := by
  have hcount1 : (save_session l reqA t1).countP
      (fun s => decide (s.session_id = reqB.session_id)) = 1 := by
    rw [← hid] at h1 ⊢
    exact save_session_count l reqA t1 h1
  set l1 := save_session l reqA t1 with hl1
  have hany : (l1.any (fun s => decide (s.session_id = reqB.session_id))) = true := by
    have hpos : 0 < l1.countP (fun s => decide (s.session_id = reqB.session_id)) := by
      omega
    rcases List.countP_pos_iff.mp hpos with ⟨a, ha, hpa⟩
    exact List.any_eq_true.mpr ⟨a, ha, hpa⟩
  constructor
  · show (save_session l1 reqB t2).countP _ = 1
    unfold save_session
    rw [if_pos hany,
      countP_updateFirst l1 reqB.session_id (updateEntry reqB t2) (fun s => rfl)]
    exact hcount1
  · intro s hs hsid
    have hs2 : s ∈ updateFirst l1 reqB.session_id (updateEntry reqB t2) := by
      have : save_session l1 reqB t2
          = updateFirst l1 reqB.session_id (updateEntry reqB t2) := by
        unfold save_session
        rw [if_pos hany]
      rw [list_sessions, this] at hs
      exact hs
    rcases updateFirst_mem l1 reqB.session_id (updateEntry reqB t2)
        (le_of_eq hcount1) s hs2 hsid with ⟨s0, hs0, rfl⟩
    rfl

/-- C7 witness: the round trip on the empty registry. -/
theorem C7_registry_roundtrip_witness :
    (list_sessions (save_session (save_session []
        ⟨"s1", "Name A", none⟩ "t1") ⟨"s1", "Name B", none⟩ "t2")).countP
        (fun s => decide (s.session_id = SaveSessionRequest.session_id ⟨"s1", "Name B", none⟩)) = 1
    ∧ ∀ s ∈ list_sessions (save_session (save_session []
        ⟨"s1", "Name A", none⟩ "t1") ⟨"s1", "Name B", none⟩ "t2"),
        s.session_id = SaveSessionRequest.session_id ⟨"s1", "Name B", none⟩ →
          s.name = SaveSessionRequest.name ⟨"s1", "Name B", none⟩ :=
  C7_registry_roundtrip [] ⟨"s1", "Name A", none⟩ ⟨"s1", "Name B", none⟩
    "t1" "t2" rfl (by decide)

/-- C8: deleting an id that is absent from the registry returns the
404 error and leaves the persisted document untouched — the raise
happens before any write. -/
theorem C8_delete_absent (doc : List SessionEntry) (id : String)
    (h : ∀ s ∈ doc, s.session_id ≠ id) :
    delete_session doc id = (doc, .error 404) := by
  have hf : doc.filter (fun s => decide (s.session_id ≠ id)) = doc := by
    refine List.filter_eq_self.mpr ?_
    intro a ha
    simpa using h a ha
  unfold delete_session
  rw [hf]
  simp

/-- C8 witness: deleting an absent id from a one-entry registry. -/
theorem C8_delete_absent_witness :
    delete_session [⟨"s1", "Alpha", "", "t0", "t0"⟩] "s2"
      = ([⟨"s1", "Alpha", "", "t0", "t0"⟩], .error 404) :=
  C8_delete_absent [⟨"s1", "Alpha", "", "t0", "t0"⟩] "s2" (by decide)

/-- C10: a non-zero exit with empty stderr emits no error frame: the
outward events are identical to those of a clean exit with the same
stdout, and with no stdout the stream is exactly init then done, so a
silent failure is indistinguishable from success for the client. -/
theorem C10_silent_failure (req : ClaudeCodeRequest) (lines : List InLine)
    (cancelAfter : Option Nat) (endMs : Nat) (rc : Int) (hrc : rc ≠ 0) :
    (generate req ⟨none, lines, cancelAfter, rc, "", endMs⟩).events
      = (generate req ⟨none, lines, cancelAfter, 0, "", endMs⟩).events
    ∧ (generate req ⟨none, [], none, rc, "", endMs⟩).events
      = [initEvent, doneEvent (sidInit req) endMs] := by
  constructor
  · unfold generate
    cases hrun : runLines lines (sidInit req) cancelAfter <;> simp [hrun]
  · unfold generate
    simp [runLines]

/-- C10 witness: the silent-failure equivalence at exit status 1 with
no stdout. -/
theorem C10_silent_failure_witness :
    (generate reqHello ⟨none, [], none, 1, "", 0⟩).events
      = (generate reqHello ⟨none, [], none, 0, "", 0⟩).events
    ∧ (generate reqHello ⟨none, [], none, 1, "", 0⟩).events
      = [initEvent, doneEvent (sidInit reqHello) 0] :=
  C10_silent_failure reqHello [] none 0 1 (by decide)

/-- Unfolding of the read loop at the empty line list when the budget
is not exhausted. -/
theorem runLines_nil_eq (sid : Json) (fuel : Option Nat)
    (h : fuel ≠ some 0) : runLines [] sid fuel = .eof [] sid := by
  unfold runLines
  rw [if_neg h]

/-- Unfolding of the read loop at a cons when the budget is not
exhausted. -/
theorem runLines_cons_eq (l : InLine) (rest : List InLine) (sid : Json)
    (fuel : Option Nat) (h : fuel ≠ some 0) :
    runLines (l :: rest) sid fuel
      = (match processLine l sid with
         | .ok evs sid1 =>
           (match runLines rest sid1 (fuel.map (fun n => n - 1)) with
            | .eof evs2 sid2 => RunOut.eof (evs ++ evs2) sid2
            | .crashed evs2 sid2 m => RunOut.crashed (evs ++ evs2) sid2 m
            | .cancelled evs2 sid2 => RunOut.cancelled (evs ++ evs2) sid2)
         | .crash evs sid1 m => RunOut.crashed evs sid1 m) := by
  conv_lhs => rw [runLines]
  rw [if_neg h]

/-- With no cancellation the read loop ends at EOF or in a crash,
never cancelled. -/
theorem runLines_fuel_none (ls : List InLine) (sid : Json) :
    (∃ evs s, runLines ls sid none = .eof evs s)
    ∨ (∃ evs s m, runLines ls sid none = .crashed evs s m) := by
  induction ls generalizing sid with
  | nil => exact .inl ⟨[], sid, runLines_nil_eq sid none (by simp)⟩
  | cons l rest ih =>
    rw [runLines_cons_eq l rest sid none (by simp)]
    cases hp : processLine l sid with
    | ok evs sid1 =>
      rcases ih sid1 with ⟨evs2, s2, h2⟩ | ⟨evs2, s2, m2, h2⟩
      · left
        refine ⟨evs ++ evs2, s2, ?_⟩
        simp only [Option.map_none']
        rw [h2]
      · right
        refine ⟨evs ++ evs2, s2, m2, ?_⟩
        simp only [Option.map_none']
        rw [h2]
    | crash evs sid1 m => exact .inr ⟨evs, sid1, m, rfl⟩

/-- The type tag of a message frame. -/
theorem lookup_type_msgEvent (t s : Json) :
    (msgEvent t s).lookup "type" = some (.str "message") := rfl

/-- The type tag of a tool_use frame. -/
theorem lookup_type_toolUseEvent (t s : Json) :
    (toolUseEvent t s).lookup "type" = some (.str "tool_use") := rfl

/-- The type tag of a result frame. -/
theorem lookup_type_resultEvent (r s c : Json) (d : Nat) :
    (resultEvent r s c d).lookup "type" = some (.str "result") := rfl

/-- The type tag of an error frame. -/
theorem lookup_type_errEvent (e s : Json) :
    (errEvent e s).lookup "type" = some (.str "error") := rfl

/-- The type tag of a system frame. -/
theorem lookup_type_sysEvent (m s : Json) :
    (sysEvent m s).lookup "type" = some (.str "system") := rfl

/-- The session id carried by a message frame. -/
theorem lookup_sid_msgEvent (t s : Json) :
    (msgEvent t s).lookup "session_id" = some s := rfl

/-- The session id carried by a tool_use frame. -/
theorem lookup_sid_toolUseEvent (t s : Json) :
    (toolUseEvent t s).lookup "session_id" = some s := rfl

/-- The session id carried by a result frame. -/
theorem lookup_sid_resultEvent (r s c : Json) (d : Nat) :
    (resultEvent r s c d).lookup "session_id" = some s := rfl

/-- The session id carried by an error frame. -/
theorem lookup_sid_errEvent (e s : Json) :
    (errEvent e s).lookup "session_id" = some s := rfl

/-- The session id carried by a system frame. -/
theorem lookup_sid_sysEvent (m s : Json) :
    (sysEvent m s).lookup "session_id" = some s := rfl

/-- The session id carried by a done frame. -/
theorem lookup_sid_doneEvent (s : Json) (d : Nat) :
    (doneEvent s d).lookup "session_id" = some s := rfl

/-- The session id carried by a cancelled frame. -/
theorem lookup_sid_cancelledEvent (s : Json) :
    (cancelledEvent s).lookup "session_id" = some s := rfl

/-- Overwriting a present key makes it the looked-up value. -/
theorem lookup_map_overwrite (fs : List (String × Json)) (k : String) (v : Json)
    (h : (fs.any (fun p => p.1 == k)) = true) :
    List.lookup k (fs.map (fun p => if p.1 == k then (k, v) else p)) = some v := by
  induction fs with
  | nil => simp at h
  | cons p rest ih =>
    simp only [List.map_cons]
    by_cases hp : (p.1 == k) = true
    · rw [if_pos hp]
      simp [List.lookup]
    · rw [if_neg hp]
      have hp' : (p.1 == k) = false := by
        cases hval : p.1 == k with
        | true => exact absurd hval hp
        | false => rfl
      have hk : (k == p.1) = false := by
        refine beq_eq_false_iff_ne.mpr ?_
        intro hkk
        rw [beq_eq_false_iff_ne] at hp'
        exact hp' hkk.symm
      have hrest : (rest.any (fun p => p.1 == k)) = true := by
        simpa [List.any_cons, hp'] using h
      simp only [List.lookup, hk]
      exact ih hrest

/-- Appending a fresh key makes it the looked-up value. -/
theorem lookup_append_fresh (fs : List (String × Json)) (k : String) (v : Json)
    (h : (fs.any (fun p => p.1 == k)) = false) :
    List.lookup k (fs ++ [(k, v)]) = some v := by
  induction fs with
  | nil => simp [List.lookup]
  | cons p rest ih =>
    have hp : (p.1 == k) = false := by
      by_contra hc
      simp only [Bool.not_eq_false] at hc
      simp [List.any_cons, hc] at h
    have hk : (k == p.1) = false := by
      refine beq_eq_false_iff_ne.mpr ?_
      intro hkk
      rw [beq_eq_false_iff_ne] at hp
      exact hp hkk.symm
    have hrest : (rest.any (fun p => p.1 == k)) = false := by
      simpa [List.any_cons, hp] using h
    simp only [List.cons_append, List.lookup, hk]
    exact ih hrest

/-- Looking up a key other than the appended one skips the
appendix. -/
theorem lookup_append_ne (fs : List (String × Json)) (k : String) (v : Json)
    (q : String) (hqk : (q == k) = false) :
    List.lookup q (fs ++ [(k, v)]) = List.lookup q fs := by
  induction fs with
  | nil => simp [List.lookup, hqk]
  | cons p rest ih =>
    simp only [List.cons_append, List.lookup]
    cases hqp : q == p.1 with
    | true => rfl
    | false => exact ih

/-- Looking up a key other than the overwritten one is unchanged by
the overwrite. -/
theorem lookup_map_ne (fs : List (String × Json)) (k : String) (v : Json)
    (q : String) (hqk : (q == k) = false) :
    List.lookup q (fs.map (fun p => if p.1 == k then (k, v) else p))
      = List.lookup q fs := by
  induction fs with
  | nil => rfl
  | cons p rest ih =>
    simp only [List.map_cons]
    by_cases hp : (p.1 == k) = true
    · rw [if_pos hp]
      have hpk : p.1 = k := beq_iff_eq.mp hp
      have hqp : (q == p.1) = false := by
        rw [hpk]
        exact hqk
      simp only [List.lookup, hqk, hqp]
      exact ih
    · rw [if_neg hp]
      simp only [List.lookup]
      cases hqp : q == p.1 with
      | true => rfl
      | false => exact ih

/-- After the dict assignment event with key k set to v, looking up k
gives v. -/
theorem lookup_setKeyFields_self (fs : List (String × Json)) (k : String)
    (v : Json) : List.lookup k (setKeyFields fs k v) = some v := by
  unfold setKeyFields
  by_cases hany : (fs.any (fun p => p.1 == k)) = true
  · rw [if_pos hany]
    exact lookup_map_overwrite fs k v hany
  · rw [if_neg hany]
    have h' : (fs.any (fun p => p.1 == k)) = false := by
      cases hval : fs.any (fun p => p.1 == k) with
      | true => exact absurd hval hany
      | false => rfl
    exact lookup_append_fresh fs k v h'

/-- The dict assignment leaves every other key unchanged. -/
theorem lookup_setKeyFields_ne (fs : List (String × Json)) (k : String)
    (v : Json) (q : String) (hq : q ≠ k) :
    List.lookup q (setKeyFields fs k v) = List.lookup q fs := by
  have hqk : (q == k) = false := beq_eq_false_iff_ne.mpr hq
  unfold setKeyFields
  by_cases hany : (fs.any (fun p => p.1 == k)) = true
  · rw [if_pos hany]
    exact lookup_map_ne fs k v q hqk
  · rw [if_neg hany]
    exact lookup_append_ne fs k v q hqk

/-- The forwarded event of the catch-all branch always carries the
assigned session id. -/
theorem lookup_setKey_self (fs : List (String × Json)) (k : String) (v : Json) :
    (Json.setKey (.obj fs) k v).lookup k = some v :=
  lookup_setKeyFields_self fs k v

/-- The forwarded event keeps the looked-up values of all other
keys. -/
theorem lookup_setKey_ne (fs : List (String × Json)) (k : String) (v : Json)
    (q : String) (hq : q ≠ k) :
    (Json.setKey (.obj fs) k v).lookup q = (Json.obj fs).lookup q :=
  lookup_setKeyFields_ne fs k v q hq

/-- Membership in the events of a consEv outcome. -/
theorem mem_consEv {e ev : Json} {out : LineOut}
    (h : e ∈ (out.consEv ev).events) : e = ev ∨ e ∈ out.events := by
  cases out with
  | ok evs s => simpa [LineOut.consEv, LineOut.events] using h
  | crash evs s m => simpa [LineOut.consEv, LineOut.events] using h

/-- consEv prepends the event. -/
theorem consEv_events (ev : Json) (out : LineOut) :
    (out.consEv ev).events = ev :: out.events := by
  cases out <;> rfl

/-- consEv keeps the running session id. -/
theorem consEv_sid (ev : Json) (out : LineOut) :
    (out.consEv ev).sid = out.sid := by
  cases out <;> rfl

/-- The block loop never changes the running session id. -/
theorem processBlocks_sid (blocks : List Json) (sid : Json) :
    (processBlocks blocks sid).sid = sid := by
  induction blocks with
  | nil => rfl
  | cons b rest ih =>
    cases b with
    | obj bf =>
      rcases hbt : (Json.obj bf).lookup "type" with _ | jv
      · rw [show processBlocks (Json.obj bf :: rest) sid = processBlocks rest sid
            from by rw [processBlocks, hbt]]
        exact ih
      · rcases jv with _ | b2 | n2 | t | a2 | f2
        case str =>
          rw [show processBlocks (Json.obj bf :: rest) sid
              = (if t = "text" then
                   (processBlocks rest sid).consEv
                     (msgEvent (pyGet (Json.obj bf) "text" (.str "")) sid)
                 else if t = "tool_use" then
                   (processBlocks rest sid).consEv
                     (toolUseEvent (pyGet (Json.obj bf) "name" (.str "unknown")) sid)
                 else processBlocks rest sid)
              from by rw [processBlocks, hbt]]
          split
          · rw [consEv_sid]
            exact ih
          · split
            · rw [consEv_sid]
              exact ih
            · exact ih
        all_goals
          rw [show processBlocks (Json.obj bf :: rest) sid = processBlocks rest sid
              from by rw [processBlocks, hbt]]
        all_goals exact ih
    | null => rfl
    | bool b => rfl
    | num n => rfl
    | str s => rfl
    | arr xs => rfl

/-- The assistant branch either yields nothing or exactly the events
of a block loop at the same session id. -/
theorem handleAssistant_obj_eq (j sid : Json) (mf : List (String × Json))
    (hm : j.lookup "message" = some (.obj mf)) :
    handleAssistant j sid
      = (match List.lookup "content" mf with
         | none => LineOut.ok [] sid
         | some (.arr blocks) => processBlocks blocks sid
         | some (.str s) =>
           if s.isEmpty then LineOut.ok [] sid
           else LineOut.crash [] sid "AttributeError"
         | some (.obj bf) =>
           if bf.isEmpty then LineOut.ok [] sid
           else LineOut.crash [] sid "AttributeError"
         | some _ => LineOut.crash [] sid "TypeError") := by
  rw [handleAssistant, hm]

/-- The assistant branch either yields nothing or exactly the events
of a block loop at the same session id. -/
theorem handleAssistant_events (j sid : Json) :
    (handleAssistant j sid).events = []
    ∨ ∃ blocks, (handleAssistant j sid).events = (processBlocks blocks sid).events := by
  rcases hm : j.lookup "message" with _ | mv
  · rw [show handleAssistant j sid = .ok [] sid from by rw [handleAssistant, hm]]
    exact .inl rfl
  · cases mv with
    | obj mf =>
      rw [handleAssistant_obj_eq j sid mf hm]
      rcases hc : List.lookup "content" mf with _ | cv
      · exact .inl rfl
      · cases cv with
        | arr blocks => exact .inr ⟨blocks, rfl⟩
        | str s3 =>
          left
          show (if s3.isEmpty then LineOut.ok [] sid
                else LineOut.crash [] sid "AttributeError").events = []
          split <;> rfl
        | obj f3 =>
          left
          show (if f3.isEmpty then LineOut.ok [] sid
                else LineOut.crash [] sid "AttributeError").events = []
          split <;> rfl
        | null => exact .inl rfl
        | bool b3 => exact .inl rfl
        | num n3 => exact .inl rfl
    | null =>
      rw [show handleAssistant j sid = .crash [] sid "AttributeError"
          from by rw [handleAssistant, hm]]
      exact .inl rfl
    | bool b2 =>
      rw [show handleAssistant j sid = .crash [] sid "AttributeError"
          from by rw [handleAssistant, hm]]
      exact .inl rfl
    | num n2 =>
      rw [show handleAssistant j sid = .crash [] sid "AttributeError"
          from by rw [handleAssistant, hm]]
      exact .inl rfl
    | str s2 =>
      rw [show handleAssistant j sid = .crash [] sid "AttributeError"
          from by rw [handleAssistant, hm]]
      exact .inl rfl
    | arr a2 =>
      rw [show handleAssistant j sid = .crash [] sid "AttributeError"
          from by rw [handleAssistant, hm]]
      exact .inl rfl

/-- The assistant branch never changes the running session id. -/
theorem handleAssistant_sid (j sid : Json) :
    (handleAssistant j sid).sid = sid := by
  rcases hm : j.lookup "message" with _ | mv
  · rw [show handleAssistant j sid = .ok [] sid from by rw [handleAssistant, hm]]
    rfl
  · cases mv with
    | obj mf =>
      rw [handleAssistant_obj_eq j sid mf hm]
      rcases hc : List.lookup "content" mf with _ | cv
      · rfl
      · cases cv with
        | arr blocks => exact processBlocks_sid blocks sid
        | str s3 =>
          show (if s3.isEmpty then LineOut.ok [] sid
                else LineOut.crash [] sid "AttributeError").sid = sid
          split <;> rfl
        | obj f3 =>
          show (if f3.isEmpty then LineOut.ok [] sid
                else LineOut.crash [] sid "AttributeError").sid = sid
          split <;> rfl
        | null => rfl
        | bool b3 => rfl
        | num n3 => rfl
    | null =>
      rw [show handleAssistant j sid = .crash [] sid "AttributeError"
          from by rw [handleAssistant, hm]]
      rfl
    | bool b2 =>
      rw [show handleAssistant j sid = .crash [] sid "AttributeError"
          from by rw [handleAssistant, hm]]
      rfl
    | num n2 =>
      rw [show handleAssistant j sid = .crash [] sid "AttributeError"
          from by rw [handleAssistant, hm]]
      rfl
    | str s2 =>
      rw [show handleAssistant j sid = .crash [] sid "AttributeError"
          from by rw [handleAssistant, hm]]
      rfl
    | arr a2 =>
      rw [show handleAssistant j sid = .crash [] sid "AttributeError"
          from by rw [handleAssistant, hm]]
      rfl

/-- A truthy running id is never replaced. -/
theorem stepSid_frozen (j sid : Json) (hs : sid.isFalsy = false) :
    stepSid j sid = sid := by
  unfold stepSid
  rw [hs, Bool.and_false]
  rfl

/-- Unfolding of processEvent on a decoded object. -/
theorem processEvent_obj_eq (fs : List (String × Json)) (sid : Json) (t : Nat) :
    processEvent (.obj fs) sid t
      = (match (Json.obj fs).lookup "type" with
         | some (.str et) =>
           if et = "assistant" then
             handleAssistant (.obj fs) (stepSid (.obj fs) sid)
           else if et = "result" then
             .ok [resultEvent (pyGet (.obj fs) "result" (.str ""))
                    (pyGet (.obj fs) "session_id" (stepSid (.obj fs) sid))
                    (pyGet (.obj fs) "total_cost_usd" (.num 0)) t]
               (stepSid (.obj fs) sid)
           else if et = "error" then
             (match (Json.obj fs).lookup "error" with
              | none =>
                .ok [errEvent (.str "Unknown error") (stepSid (.obj fs) sid)]
                  (stepSid (.obj fs) sid)
              | some (.obj ef) =>
                .ok [errEvent (pyGet (.obj ef) "message" (.str "Unknown error"))
                       (stepSid (.obj fs) sid)] (stepSid (.obj fs) sid)
              | some _ => .crash [] (stepSid (.obj fs) sid) "AttributeError")
           else if et = "system" then
             (if (pyGet (.obj fs) "message" (.str "")).isFalsy then
                .ok [] (stepSid (.obj fs) sid)
              else
                .ok [sysEvent (pyGet (.obj fs) "message" (.str ""))
                       (stepSid (.obj fs) sid)] (stepSid (.obj fs) sid))
           else
             .ok [(Json.obj fs).setKey "session_id" (stepSid (.obj fs) sid)]
               (stepSid (.obj fs) sid)
         | _ =>
           .ok [(Json.obj fs).setKey "session_id" (stepSid (.obj fs) sid)]
             (stepSid (.obj fs) sid)) := rfl

/-- Unfolding of processEvent when the type tag is a string. -/
theorem processEvent_str_eq (fs : List (String × Json)) (sid : Json) (t : Nat)
    (et : String) (ht : (Json.obj fs).lookup "type" = some (.str et)) :
    processEvent (.obj fs) sid t
      = (if et = "assistant" then
           handleAssistant (.obj fs) (stepSid (.obj fs) sid)
         else if et = "result" then
           .ok [resultEvent (pyGet (.obj fs) "result" (.str ""))
                  (pyGet (.obj fs) "session_id" (stepSid (.obj fs) sid))
                  (pyGet (.obj fs) "total_cost_usd" (.num 0)) t]
             (stepSid (.obj fs) sid)
         else if et = "error" then
           (match (Json.obj fs).lookup "error" with
            | none =>
              .ok [errEvent (.str "Unknown error") (stepSid (.obj fs) sid)]
                (stepSid (.obj fs) sid)
            | some (.obj ef) =>
              .ok [errEvent (pyGet (.obj ef) "message" (.str "Unknown error"))
                     (stepSid (.obj fs) sid)] (stepSid (.obj fs) sid)
            | some _ => .crash [] (stepSid (.obj fs) sid) "AttributeError")
         else if et = "system" then
           (if (pyGet (.obj fs) "message" (.str "")).isFalsy then
              .ok [] (stepSid (.obj fs) sid)
            else
              .ok [sysEvent (pyGet (.obj fs) "message" (.str ""))
                     (stepSid (.obj fs) sid)] (stepSid (.obj fs) sid))
         else
           .ok [(Json.obj fs).setKey "session_id" (stepSid (.obj fs) sid)]
             (stepSid (.obj fs) sid)) := by
  rw [processEvent_obj_eq, ht]

/-- Classification of everything one decoded line can do: the running
id becomes stepSid (and is unchanged while truthy), and the yielded
events are nothing, a block loop, a single result, error or system
frame, or the forwarded object with its session_id overwritten. -/
theorem processEvent_shape (j sid : Json) (t : Nat) :
    ∃ sid1,
      (processEvent j sid t).sid = sid1
      ∧ (sid.isFalsy = false → sid1 = sid)
      ∧ ((processEvent j sid t).events = []
        ∨ (∃ blocks, (processEvent j sid t).events = (processBlocks blocks sid1).events)
        ∨ (∃ r s2 c d, (processEvent j sid t).events = [resultEvent r s2 c d])
        ∨ (∃ x, (processEvent j sid t).events = [errEvent x sid1])
        ∨ (∃ x, (processEvent j sid t).events = [sysEvent x sid1])
        ∨ ((∃ fs, j = Json.obj fs)
            ∧ (processEvent j sid t).events = [j.setKey "session_id" sid1])) := by
  cases j with
  | null => exact ⟨sid, rfl, fun _ => rfl, .inl rfl⟩
  | bool b => exact ⟨sid, rfl, fun _ => rfl, .inl rfl⟩
  | num n => exact ⟨sid, rfl, fun _ => rfl, .inl rfl⟩
  | str s => exact ⟨sid, rfl, fun _ => rfl, .inl rfl⟩
  | arr xs => exact ⟨sid, rfl, fun _ => rfl, .inl rfl⟩
  | obj fs =>
    refine ⟨stepSid (.obj fs) sid, ?_, fun hs => stepSid_frozen _ sid hs, ?_⟩
    · rcases ht : (Json.obj fs).lookup "type" with _ | tv
      · rw [processEvent_obj_eq, ht]
        rfl
      · cases tv with
        | str et =>
          rw [processEvent_str_eq fs sid t et ht]
          by_cases h1 : et = "assistant"
          · rw [if_pos h1]
            exact handleAssistant_sid _ _
          · rw [if_neg h1]
            by_cases h2 : et = "result"
            · rw [if_pos h2]
              rfl
            · rw [if_neg h2]
              by_cases h3 : et = "error"
              · rw [if_pos h3]
                rcases herr : (Json.obj fs).lookup "error" with _ | ev
                · rfl
                · cases ev <;> rfl
              · rw [if_neg h3]
                by_cases h4 : et = "system"
                · rw [if_pos h4]
                  split <;> rfl
                · rw [if_neg h4]
                  rfl
        | null => rw [processEvent_obj_eq, ht]; rfl
        | bool b2 => rw [processEvent_obj_eq, ht]; rfl
        | num n2 => rw [processEvent_obj_eq, ht]; rfl
        | arr a2 => rw [processEvent_obj_eq, ht]; rfl
        | obj f2 => rw [processEvent_obj_eq, ht]; rfl
    · rcases ht : (Json.obj fs).lookup "type" with _ | tv
      · exact .inr (.inr (.inr (.inr (.inr ⟨⟨fs, rfl⟩,
          by rw [processEvent_obj_eq, ht]; rfl⟩))))
      · cases tv with
        | str et =>
          by_cases h1 : et = "assistant"
          · have hev : (processEvent (.obj fs) sid t).events
                = (handleAssistant (.obj fs) (stepSid (.obj fs) sid)).events := by
              rw [processEvent_str_eq fs sid t et ht, if_pos h1]
            rcases handleAssistant_events (.obj fs) (stepSid (.obj fs) sid) with
              hz | ⟨blocks, hb⟩
            · exact .inl (by rw [hev, hz])
            · exact .inr (.inl ⟨blocks, by rw [hev, hb]⟩)
          · by_cases h2 : et = "result"
            · refine .inr (.inr (.inl ⟨pyGet (.obj fs) "result" (.str ""),
                pyGet (.obj fs) "session_id" (stepSid (.obj fs) sid),
                pyGet (.obj fs) "total_cost_usd" (.num 0), t, ?_⟩))
              rw [processEvent_str_eq fs sid t et ht, if_neg h1, if_pos h2]
              rfl
            · by_cases h3 : et = "error"
              · rcases herr : (Json.obj fs).lookup "error" with _ | ev
                · refine .inr (.inr (.inr (.inl ⟨.str "Unknown error", ?_⟩)))
                  rw [processEvent_str_eq fs sid t et ht, if_neg h1, if_neg h2,
                      if_pos h3, herr]
                  rfl
                · cases ev with
                  | obj ef =>
                    refine .inr (.inr (.inr (.inl
                      ⟨pyGet (.obj ef) "message" (.str "Unknown error"), ?_⟩)))
                    rw [processEvent_str_eq fs sid t et ht, if_neg h1, if_neg h2,
                      if_pos h3, herr]
                    rfl
                  | null =>
                    refine .inl ?_
                    rw [processEvent_str_eq fs sid t et ht, if_neg h1, if_neg h2,
                      if_pos h3, herr]
                    rfl
                  | bool b3 =>
                    refine .inl ?_
                    rw [processEvent_str_eq fs sid t et ht, if_neg h1, if_neg h2,
                      if_pos h3, herr]
                    rfl
                  | num n3 =>
                    refine .inl ?_
                    rw [processEvent_str_eq fs sid t et ht, if_neg h1, if_neg h2,
                      if_pos h3, herr]
                    rfl
                  | str s3 =>
                    refine .inl ?_
                    rw [processEvent_str_eq fs sid t et ht, if_neg h1, if_neg h2,
                      if_pos h3, herr]
                    rfl
                  | arr a3 =>
                    refine .inl ?_
                    rw [processEvent_str_eq fs sid t et ht, if_neg h1, if_neg h2,
                      if_pos h3, herr]
                    rfl
              · by_cases h4 : et = "system"
                · by_cases h5 :
                    ((pyGet (.obj fs) "message" (.str "")).isFalsy) = true
                  · refine .inl ?_
                    rw [processEvent_str_eq fs sid t et ht, if_neg h1, if_neg h2,
                      if_neg h3, if_pos h4, if_pos h5]
                    rfl
                  · refine .inr (.inr (.inr (.inr (.inl
                      ⟨pyGet (.obj fs) "message" (.str ""), ?_⟩))))
                    rw [processEvent_str_eq fs sid t et ht, if_neg h1, if_neg h2,
                      if_neg h3, if_pos h4, if_neg h5]
                    rfl
                · refine .inr (.inr (.inr (.inr (.inr ⟨⟨fs, rfl⟩, ?_⟩))))
                  rw [processEvent_str_eq fs sid t et ht, if_neg h1, if_neg h2,
                    if_neg h3, if_neg h4]
                  rfl
        | null => exact .inr (.inr (.inr (.inr (.inr ⟨⟨fs, rfl⟩,
            by rw [processEvent_obj_eq, ht]; rfl⟩))))
        | bool b2 => exact .inr (.inr (.inr (.inr (.inr ⟨⟨fs, rfl⟩,
            by rw [processEvent_obj_eq, ht]; rfl⟩))))
        | num n2 => exact .inr (.inr (.inr (.inr (.inr ⟨⟨fs, rfl⟩,
            by rw [processEvent_obj_eq, ht]; rfl⟩))))
        | arr a2 => exact .inr (.inr (.inr (.inr (.inr ⟨⟨fs, rfl⟩,
            by rw [processEvent_obj_eq, ht]; rfl⟩))))
        | obj f2 => exact .inr (.inr (.inr (.inr (.inr ⟨⟨fs, rfl⟩,
            by rw [processEvent_obj_eq, ht]; rfl⟩))))

/-- Every frame produced for one content block carries exactly the
running session id. -/
theorem carries_processBlocks (blocks : List Json) (sid : Json) :
    ∀ e ∈ (processBlocks blocks sid).events,
      e.lookup "session_id" = some sid := by
  induction blocks with
  | nil => intro e he; cases he
  | cons b rest ih =>
    intro e he
    cases b with
    | obj bf =>
      rcases hbt : (Json.obj bf).lookup "type" with _ | jv
      · rw [show processBlocks (Json.obj bf :: rest) sid = processBlocks rest sid
            from by rw [processBlocks, hbt]] at he
        exact ih e he
      · rcases jv with _ | b2 | n2 | t | a2 | f2
        case str =>
          rw [show processBlocks (Json.obj bf :: rest) sid
              = (if t = "text" then
                   (processBlocks rest sid).consEv
                     (msgEvent (pyGet (Json.obj bf) "text" (.str "")) sid)
                 else if t = "tool_use" then
                   (processBlocks rest sid).consEv
                     (toolUseEvent (pyGet (Json.obj bf) "name" (.str "unknown")) sid)
                 else processBlocks rest sid)
              from by rw [processBlocks, hbt]] at he
          by_cases ht : t = "text"
          · rw [if_pos ht] at he
            rcases mem_consEv he with rfl | he2
            · simp [lookup_sid_msgEvent]
            · exact ih e he2
          · rw [if_neg ht] at he
            by_cases ht2 : t = "tool_use"
            · rw [if_pos ht2] at he
              rcases mem_consEv he with rfl | he2
              · simp [lookup_sid_toolUseEvent]
              · exact ih e he2
            · rw [if_neg ht2] at he
              exact ih e he
        all_goals
          rw [show processBlocks (Json.obj bf :: rest) sid = processBlocks rest sid
              from by rw [processBlocks, hbt]] at he
        all_goals exact ih e he
    | null =>
      rw [show processBlocks (Json.null :: rest) sid
          = .crash [] sid "AttributeError" from rfl] at he
      cases he
    | bool b =>
      rw [show processBlocks (Json.bool b :: rest) sid
          = .crash [] sid "AttributeError" from rfl] at he
      cases he
    | num n =>
      rw [show processBlocks (Json.num n :: rest) sid
          = .crash [] sid "AttributeError" from rfl] at he
      cases he
    | str s =>
      rw [show processBlocks (Json.str s :: rest) sid
          = .crash [] sid "AttributeError" from rfl] at he
      cases he
    | arr xs =>
      rw [show processBlocks (Json.arr xs :: rest) sid
          = .crash [] sid "AttributeError" from rfl] at he
      cases he

/-- Classification of one raw line: the running id becomes some sid1
(unchanged while truthy), and the events are nothing, one message
frame at the old id (the raw-text fallback), a block loop, or one
result, error, system, or forwarded frame. -/
theorem processLine_shape (l : InLine) (sid : Json) :
    ∃ sid1,
      (processLine l sid).sid = sid1
      ∧ (sid.isFalsy = false → sid1 = sid)
      ∧ ((processLine l sid).events = []
        ∨ (l.parsed = none
            ∧ (processLine l sid).events = [msgEvent (.str (pyStrip l.text)) sid1])
        ∨ (∃ blocks, (processLine l sid).events = (processBlocks blocks sid1).events)
        ∨ (∃ r s2 c d, (processLine l sid).events = [resultEvent r s2 c d])
        ∨ (∃ x, (processLine l sid).events = [errEvent x sid1])
        ∨ (∃ x, (processLine l sid).events = [sysEvent x sid1])
        ∨ (∃ fs, l.parsed = some (Json.obj fs)
            ∧ (processLine l sid).events
              = [(Json.obj fs).setKey "session_id" sid1])) := by
  unfold processLine
  by_cases hb : pyStrip l.text = ""
  · rw [if_pos hb]
    exact ⟨sid, rfl, fun _ => rfl, .inl rfl⟩
  · rw [if_neg hb]
    cases hp : l.parsed with
    | none => exact ⟨sid, rfl, fun _ => rfl, .inr (.inl ⟨rfl, rfl⟩)⟩
    | some j =>
      rcases processEvent_shape j sid l.atMs with ⟨sid1, hsid, hfroz, hcls⟩
      refine ⟨sid1, hsid, hfroz, ?_⟩
      rcases hcls with h | ⟨blocks, h⟩ | ⟨r, s2, c, d, h⟩ | ⟨x, h⟩ | ⟨x, h⟩ |
        ⟨⟨fs, hfs⟩, h⟩
      · exact .inl h
      · exact .inr (.inr (.inl ⟨blocks, h⟩))
      · exact .inr (.inr (.inr (.inl ⟨r, s2, c, d, h⟩)))
      · exact .inr (.inr (.inr (.inr (.inl ⟨x, h⟩))))
      · exact .inr (.inr (.inr (.inr (.inr (.inl ⟨x, h⟩)))))
      · subst hfs
        exact .inr (.inr (.inr (.inr (.inr (.inr ⟨fs, rfl, h⟩)))))

/-- Every frame of one processed line has a session_id field. -/
theorem hasSid_processLine (l : InLine) (sid : Json) :
    ∀ e ∈ (processLine l sid).events, (e.lookup "session_id").isSome = true := by
  rcases processLine_shape l sid with ⟨sid1, _, _, hcls⟩
  intro e he
  rcases hcls with h | ⟨_, h⟩ | ⟨blocks, h⟩ | ⟨r, s2, c, d, h⟩ | ⟨x, h⟩ | ⟨x, h⟩ |
    ⟨fs, _, h⟩ <;> rw [h] at he
  · cases he
  · rcases List.mem_singleton.mp he with rfl
    rw [lookup_sid_msgEvent]
    rfl
  · rw [carries_processBlocks blocks sid1 e he]
    rfl
  · rcases List.mem_singleton.mp he with rfl
    rw [lookup_sid_resultEvent]
    rfl
  · rcases List.mem_singleton.mp he with rfl
    rw [lookup_sid_errEvent]
    rfl
  · rcases List.mem_singleton.mp he with rfl
    rw [lookup_sid_sysEvent]
    rfl
  · rcases List.mem_singleton.mp he with rfl
    rw [lookup_setKey_self]
    rfl

/-- The read loop at an exhausted budget cancels with no events. -/
theorem runLines_zero (ls : List InLine) (sid : Json) (fuel : Option Nat)
    (h0 : fuel = some 0) : runLines ls sid fuel = .cancelled [] sid := by
  rw [runLines.eq_def, if_pos h0]

/-- One successful line prepends its events to the rest of the loop
and threads its session id through. -/
theorem runLines_step (l : InLine) (rest : List InLine) (sid : Json)
    (fuel : Option Nat) (h0 : fuel ≠ some 0) (evs : List Json) (sid1 : Json)
    (hp : processLine l sid = .ok evs sid1) :
    (runLines (l :: rest) sid fuel).events
      = evs ++ (runLines rest sid1 (fuel.map (fun n => n - 1))).events
    ∧ (runLines (l :: rest) sid fuel).sid
      = (runLines rest sid1 (fuel.map (fun n => n - 1))).sid
    ∧ (runLines (l :: rest) sid fuel).isCrash
      = (runLines rest sid1 (fuel.map (fun n => n - 1))).isCrash := by
  cases hr : runLines rest sid1 (fuel.map (fun n => n - 1)) with
  | eof evs2 sid2 =>
    have heq : runLines (l :: rest) sid fuel = .eof (evs ++ evs2) sid2 := by
      rw [runLines_cons_eq l rest sid fuel h0, hp]
      show (match runLines rest sid1 (fuel.map (fun n => n - 1)) with
            | RunOut.eof evs2 sid2 => RunOut.eof (evs ++ evs2) sid2
            | RunOut.crashed evs2 sid2 m => RunOut.crashed (evs ++ evs2) sid2 m
            | RunOut.cancelled evs2 sid2 => RunOut.cancelled (evs ++ evs2) sid2)
          = RunOut.eof (evs ++ evs2) sid2
      rw [hr]
    rw [heq]
    exact ⟨rfl, rfl, rfl⟩
  | crashed evs2 sid2 m =>
    have heq : runLines (l :: rest) sid fuel = .crashed (evs ++ evs2) sid2 m := by
      rw [runLines_cons_eq l rest sid fuel h0, hp]
      show (match runLines rest sid1 (fuel.map (fun n => n - 1)) with
            | RunOut.eof evs2 sid2 => RunOut.eof (evs ++ evs2) sid2
            | RunOut.crashed evs2 sid2 m => RunOut.crashed (evs ++ evs2) sid2 m
            | RunOut.cancelled evs2 sid2 => RunOut.cancelled (evs ++ evs2) sid2)
          = RunOut.crashed (evs ++ evs2) sid2 m
      rw [hr]
    rw [heq]
    exact ⟨rfl, rfl, rfl⟩
  | cancelled evs2 sid2 =>
    have heq : runLines (l :: rest) sid fuel = .cancelled (evs ++ evs2) sid2 := by
      rw [runLines_cons_eq l rest sid fuel h0, hp]
      show (match runLines rest sid1 (fuel.map (fun n => n - 1)) with
            | RunOut.eof evs2 sid2 => RunOut.eof (evs ++ evs2) sid2
            | RunOut.crashed evs2 sid2 m => RunOut.crashed (evs ++ evs2) sid2 m
            | RunOut.cancelled evs2 sid2 => RunOut.cancelled (evs ++ evs2) sid2)
          = RunOut.cancelled (evs ++ evs2) sid2
      rw [hr]
    rw [heq]
    exact ⟨rfl, rfl, rfl⟩

/-- A crashing line ends the loop with exactly its events. -/
theorem runLines_crash_step (l : InLine) (rest : List InLine) (sid : Json)
    (fuel : Option Nat) (h0 : fuel ≠ some 0) (evs : List Json) (sid1 : Json)
    (m : String) (hp : processLine l sid = .crash evs sid1 m) :
    runLines (l :: rest) sid fuel = .crashed evs sid1 m := by
  rw [runLines_cons_eq l rest sid fuel h0, hp]

/-- Every frame of the whole read loop has a session_id field. -/
theorem hasSid_runLines (ls : List InLine) (sid : Json) (fuel : Option Nat) :
    ∀ e ∈ (runLines ls sid fuel).events,
      (e.lookup "session_id").isSome = true := by
  induction ls generalizing sid fuel with
  | nil =>
    intro e he
    by_cases h0 : fuel = some 0
    · rw [runLines_zero [] sid fuel h0] at he
      cases he
    · rw [runLines_nil_eq sid fuel h0] at he
      cases he
  | cons l rest ih =>
    intro e he
    by_cases h0 : fuel = some 0
    · rw [runLines_zero (l :: rest) sid fuel h0] at he
      cases he
    · cases hp : processLine l sid with
      | ok evs sid1 =>
        rw [(runLines_step l rest sid fuel h0 evs sid1 hp).1] at he
        rcases List.mem_append.mp he with h1 | h2
        · exact hasSid_processLine l sid e (by rw [hp]; exact h1)
        · exact ih sid1 (fuel.map (fun n => n - 1)) e h2
      | crash evs sid1 m =>
        rw [runLines_crash_step l rest sid fuel h0 evs sid1 m hp] at he
        exact hasSid_processLine l sid e (by rw [hp]; exact he)

/-- Hex digits are never a newline. -/
theorem hexDigit_ne_nl (n : Nat) : hexDigit n ≠ Char.ofNat 10 := by
  unfold hexDigit
  by_cases h1 : n ≤ 9
  · rw [if_pos h1]
    interval_cases n <;> decide
  · rw [if_neg h1]
    by_cases h2 : n ≤ 15
    · rw [if_pos h2]
      have h3 : 10 ≤ n := by omega
      interval_cases n <;> decide
    · rw [if_neg h2]
      decide

/-- The escape of one character never contains a newline. -/
theorem escChar_nl (c : Char) : Char.ofNat 10 ∉ escChar c := by
  unfold escChar
  by_cases h1 : c = Char.ofNat 92
  · rw [if_pos h1]; decide
  · rw [if_neg h1]
    by_cases h2 : c = Char.ofNat 34
    · rw [if_pos h2]; decide
    · rw [if_neg h2]
      by_cases h3 : c = Char.ofNat 10
      · rw [if_pos h3]; decide
      · rw [if_neg h3]
        by_cases h4 : c = Char.ofNat 13
        · rw [if_pos h4]; decide
        · rw [if_neg h4]
          by_cases h5 : c = Char.ofNat 9
          · rw [if_pos h5]; decide
          · rw [if_neg h5]
            by_cases h6 : c = Char.ofNat 8
            · rw [if_pos h6]; decide
            · rw [if_neg h6]
              by_cases h7 : c = Char.ofNat 12
              · rw [if_pos h7]; decide
              · rw [if_neg h7]
                by_cases h8 : c.toNat < 32
                · rw [if_pos h8]
                  intro hmem
                  simp only [List.mem_cons, List.not_mem_nil, or_false] at hmem
                  rcases hmem with h | h | h | h | h | h
                  · exact absurd h (by decide)
                  · exact absurd h (by decide)
                  · exact absurd h (by decide)
                  · exact absurd h (by decide)
                  · exact hexDigit_ne_nl _ h.symm
                  · exact hexDigit_ne_nl _ h.symm
                · rw [if_neg h8]
                  intro hmem
                  simp only [List.mem_singleton] at hmem
                  exact h3 hmem.symm

/-- The escaped body of a string literal never contains a newline. -/
theorem escStr_nl (s : String) : Char.ofNat 10 ∉ escStr s := by
  unfold escStr
  intro hmem
  rcases List.mem_flatMap.mp hmem with ⟨c, _, hc⟩
  exact escChar_nl c hc

/-- A string literal never contains a newline. -/
theorem strLit_nl (s : String) : Char.ofNat 10 ∉ strLit s := by
  unfold strLit
  intro hmem
  rcases List.mem_cons.mp hmem with h | h
  · exact absurd h (by decide)
  · rcases List.mem_append.mp h with h2 | h2
    · exact escStr_nl s h2
    · exact absurd h2 (by decide)

/-- Decimal digits are never a newline. -/
theorem digitChar_ne_nl (n : Nat) : digitChar n ≠ Char.ofNat 10 := by
  unfold digitChar
  have h : n % 10 < 10 := Nat.mod_lt _ (by omega)
  generalize hk : n % 10 = k at h ⊢
  interval_cases k <;> decide

/-- The decimal form of a natural number never contains a newline. -/
theorem natChars_nl (n : Nat) : Char.ofNat 10 ∉ natChars n := by
  induction n using Nat.strong_induction_on with
  | _ n ih =>
    rw [natChars.eq_def]
    split
    · intro hmem
      simp only [List.mem_singleton] at hmem
      exact digitChar_ne_nl n hmem.symm
    · next hn =>
      intro hmem
      rcases List.mem_append.mp hmem with h | h
      · exact ih (n / 10) (Nat.div_lt_self (by omega) (by omega)) h
      · simp only [List.mem_singleton] at h
        exact digitChar_ne_nl n h.symm

/-- The decimal form of an integer never contains a newline. -/
theorem intChars_nl (n : Int) : Char.ofNat 10 ∉ intChars n := by
  unfold intChars
  split
  · intro hmem
    rcases List.mem_cons.mp hmem with h | h
    · exact absurd h (by decide)
    · exact natChars_nl _ h
  · exact natChars_nl _

/-- A serialized array never contains a newline, given that its
members do not. -/
theorem dumpsArr_nl (xs : List Json) :
    (∀ x ∈ xs, Char.ofNat 10 ∉ dumpsL x) → Char.ofNat 10 ∉ dumpsArr xs := by
  induction xs with
  | nil =>
    intro _ hmem
    cases hmem
  | cons x rest ihr =>
    intro hall
    cases rest with
    | nil => exact hall x (by simp)
    | cons y rest2 =>
      intro hmem
      rw [show dumpsArr (x :: y :: rest2)
          = dumpsL x ++ (", ".data ++ dumpsArr (y :: rest2)) from rfl] at hmem
      rcases List.mem_append.mp hmem with h | h
      · exact hall x (by simp) h
      · rcases List.mem_append.mp h with h2 | h2
        · exact absurd h2 (by decide)
        · exact ihr (fun z hz => hall z (List.mem_cons_of_mem x hz)) h2

/-- A serialized object never contains a newline, given that its
values do not. -/
theorem dumpsObj_nl (fs : List (String × Json)) :
    (∀ p ∈ fs, Char.ofNat 10 ∉ dumpsL p.2) → Char.ofNat 10 ∉ dumpsObj fs := by
  induction fs with
  | nil =>
    intro _ hmem
    cases hmem
  | cons p rest ihr =>
    intro hall
    cases rest with
    | nil =>
      rcases p with ⟨k, v⟩
      intro hmem
      rw [show dumpsObj [(k, v)] = strLit k ++ (": ".data ++ dumpsL v)
          from rfl] at hmem
      rcases List.mem_append.mp hmem with h | h
      · exact strLit_nl k h
      · rcases List.mem_append.mp h with h2 | h2
        · exact absurd h2 (by decide)
        · exact hall (k, v) (by simp) h2
    | cons q rest2 =>
      rcases p with ⟨k, v⟩
      intro hmem
      rw [show dumpsObj ((k, v) :: q :: rest2)
          = strLit k ++ (": ".data ++ dumpsL v)
            ++ (", ".data ++ dumpsObj (q :: rest2)) from rfl] at hmem
      rcases List.mem_append.mp hmem with h | h
      · rcases List.mem_append.mp h with h2 | h2
        · exact strLit_nl k h2
        · rcases List.mem_append.mp h2 with h3 | h3
          · exact absurd h3 (by decide)
          · exact hall (k, v) (by simp) h3
      · rcases List.mem_append.mp h with h2 | h2
        · exact absurd h2 (by decide)
        · exact ihr (fun z hz => hall z (List.mem_cons_of_mem (k, v) hz)) h2

/-- Bounded-size form of the single-line property of json.dumps. -/
theorem dumpsL_nl_aux (N : Nat) :
    ∀ j : Json, sizeOf j ≤ N → Char.ofNat 10 ∉ dumpsL j := by
  induction N with
  | zero =>
    intro j hj
    exfalso
    cases j <;> simp at hj
  | succ N ihN =>
    intro j hj
    cases j with
    | null => decide
    | bool b => cases b <;> decide
    | num n => exact intChars_nl n
    | str s => exact strLit_nl s
    | arr xs =>
      have hx : ∀ x ∈ xs, Char.ofNat 10 ∉ dumpsL x := by
        intro x hx
        apply ihN
        have h1 := List.sizeOf_lt_of_mem hx
        have h2 : sizeOf (Json.arr xs) = 1 + sizeOf xs := by simp
        omega
      intro hmem
      rw [show dumpsL (.arr xs) = Char.ofNat 91 :: dumpsArr xs ++ [Char.ofNat 93]
          from rfl] at hmem
      rcases List.mem_cons.mp hmem with h | h
      · exact absurd h (by decide)
      · rcases List.mem_append.mp h with h2 | h2
        · exact dumpsArr_nl xs hx h2
        · exact absurd h2 (by decide)
    | obj fs =>
      have hx : ∀ p ∈ fs, Char.ofNat 10 ∉ dumpsL p.2 := by
        intro p hp
        apply ihN
        have h1 := List.sizeOf_lt_of_mem hp
        have h2 : sizeOf (Json.obj fs) = 1 + sizeOf fs := by simp
        have h3 : sizeOf p = 1 + sizeOf p.1 + sizeOf p.2 := by
          rcases p with ⟨a, b⟩
          simp
        omega
      intro hmem
      rw [show dumpsL (.obj fs) = Char.ofNat 123 :: dumpsObj fs ++ [Char.ofNat 125]
          from rfl] at hmem
      rcases List.mem_cons.mp hmem with h | h
      · exact absurd h (by decide)
      · rcases List.mem_append.mp h with h2 | h2
        · exact dumpsObj_nl fs hx h2
        · exact absurd h2 (by decide)

/-- json.dumps output is a single line: it never contains a raw
newline character. -/
theorem dumpsL_nl (j : Json) : Char.ofNat 10 ∉ dumpsL j :=
  dumpsL_nl_aux (sizeOf j) j le_rfl

/-- Events of the generator on a spawn failure. -/
theorem generate_spawnFail_eq (req : ClaudeCodeRequest) (tr : Trace)
    (m : String) (hs : tr.spawn = some m) :
    (generate req tr).events = [initEvent, errEvent (.str m) (sidInit req)] := by
  unfold generate
  rw [hs]

/-- Events of the generator when the read loop reaches EOF. -/
theorem generate_eof_eq (req : ClaudeCodeRequest) (tr : Trace)
    (evs : List Json) (sid : Json) (hs : tr.spawn = none)
    (hr : runLines tr.lines (sidInit req) tr.cancelAfter = .eof evs sid) :
    (generate req tr).events
      = initEvent :: evs
        ++ (if tr.returncode ≠ 0 ∧ tr.stderr ≠ "" then
              [errEvent (.str (pyStrip tr.stderr)) sid] else [])
        ++ [doneEvent sid tr.endMs] := by
  unfold generate
  rw [hs, hr]

/-- Events of the generator when the loop is cancelled. -/
theorem generate_cancelled_eq (req : ClaudeCodeRequest) (tr : Trace)
    (evs : List Json) (sid : Json) (hs : tr.spawn = none)
    (hr : runLines tr.lines (sidInit req) tr.cancelAfter = .cancelled evs sid) :
    (generate req tr).events = initEvent :: evs ++ [cancelledEvent sid] := by
  unfold generate
  rw [hs, hr]

/-- Events of the generator when a line crashes the handler. -/
theorem generate_crashed_eq (req : ClaudeCodeRequest) (tr : Trace)
    (evs : List Json) (sid : Json) (m : String) (hs : tr.spawn = none)
    (hr : runLines tr.lines (sidInit req) tr.cancelAfter = .crashed evs sid m) :
    (generate req tr).events = initEvent :: evs ++ [errEvent (.str m) sid] := by
  unfold generate
  rw [hs, hr]

/-- C4 amended: request validation only enforces that a message field
of string type is present (a missing field is a 422), while the
generator attempts the spawn for every accepted request, including the
empty prompt. -/
theorem C4_amended :
    (∀ body : List (String × Json), List.lookup "message" body = none →
        validateClaudeCodeRequest body = none)
    ∧ ∀ (req : ClaudeCodeRequest) (tr : Trace), (generate req tr).spawned = true := by
  constructor
  · intro body h
    unfold validateClaudeCodeRequest
    rw [h]
    rfl
  · intro req tr
    unfold generate
    cases hs : tr.spawn with
    | some m => simp [hs]
    | none =>
      cases hr : runLines tr.lines (sidInit req) tr.cancelAfter <;> simp [hs, hr]

/-- C4 witness: a body without a message key is rejected, and the
hello request with a quiet subprocess reaches the spawn. -/
theorem C4_amended_witness :
    validateClaudeCodeRequest [("prompt", Json.null)] = none
    ∧ (generate reqHello trEmpty).spawned = true :=
  ⟨C4_amended.1 [("prompt", Json.null)] rfl, C4_amended.2 reqHello trEmpty⟩

/-- C5 amended: the streaming endpoint enforces no wall-clock budget:
on any crash-free, uncancelled run the last frame is the done frame
carrying the full subprocess duration, whatever it is; hard budgets
exist only on the non-streaming goose endpoint (600 s research, 180 s
otherwise), where exceeding them raises an HTTP 504 instead of
emitting a timeout frame. -/
theorem C5_amended (req : ClaudeCodeRequest) (tr : Trace)
    (hspawn : tr.spawn = none) (hcancel : tr.cancelAfter = none)
    (hcrash : (runLines tr.lines (sidInit req) tr.cancelAfter).isCrash = false) :
    (∃ sid, (generate req tr).events.getLast? = some (doneEvent sid tr.endMs))
    ∧ goose_timeout "research" = 600 ∧ goose_timeout "chat" = 180 := by
  refine ⟨?_, rfl, rfl⟩
  rw [hcancel] at hcrash
  rcases runLines_fuel_none tr.lines (sidInit req) with ⟨evs, s, h⟩ | ⟨evs, s, m, h⟩
  · refine ⟨s, ?_⟩
    unfold generate
    simp only [hspawn, hcancel, h]
    rw [show initEvent :: evs
          ++ (if tr.returncode ≠ 0 ∧ tr.stderr ≠ "" then
                [errEvent (.str (pyStrip tr.stderr)) s] else [])
          ++ [doneEvent s tr.endMs]
        = (initEvent :: (evs
            ++ (if tr.returncode ≠ 0 ∧ tr.stderr ≠ "" then
                  [errEvent (.str (pyStrip tr.stderr)) s] else [])))
          ++ [doneEvent s tr.endMs] from by simp]
    exact List.getLast?_concat _
  · rw [h] at hcrash
    cases hcrash

/-- C5 witness: the ten-second sleeper run ends with a done frame
carrying the ten seconds. -/
theorem C5_amended_witness :
    (∃ sid, (generate reqHello trSleep).events.getLast?
        = some (doneEvent sid trSleep.endMs))
    ∧ goose_timeout "research" = 600 ∧ goose_timeout "chat" = 180 :=
  C5_amended reqHello trSleep rfl rfl rfl

/-- C6 amended: on a naming timeout the endpoint succeeds with the
stripped first 30 characters and no dots suffix; the dots suffix is
produced only by the non-timeout fallback (non-zero exit, or an empty
generated name), which appends it exactly when the first message
exceeds 30 characters. -/
theorem C6_amended (fm : String) (rc : Int) (stdout : Option Json)
    (hrc : rc ≠ 0) :
    claude_name_session fm .timeout
      = { success := true, name := pyStrip (pyTake fm 30) }
    ∧ claude_name_session fm (.completed rc stdout)
      = { success := true, name := fallbackName fm }
    ∧ (30 < fm.length →
        fallbackName fm = pyStrip (pyTake fm 30) ++ "...") := by
  refine ⟨rfl, ?_, ?_⟩
  · simp only [claude_name_session]
    rw [if_neg hrc]
  · intro h
    unfold fallbackName
    rw [if_pos h]

/-- C6 witness: the forty-letter message under a timeout and under a
failed exit. -/
theorem C6_amended_witness :
    claude_name_session fm40 .timeout
      = { success := true, name := pyStrip (pyTake fm40 30) }
    ∧ claude_name_session fm40 (.completed 1 none)
      = { success := true, name := fallbackName fm40 }
    ∧ (30 < fm40.length →
        fallbackName fm40 = pyStrip (pyTake fm40 30) ++ "...") :=
  C6_amended fm40 1 none (by decide)

/-- The result frame is the only translator frame tagged result. -/
theorem typeIs_resultEvent (r s c : Json) (d : Nat) :
    typeIs (resultEvent r s c d) "result" = true := rfl

/-- A truthy running id survives one line, and every frame of that
line except a result frame carries exactly it. -/
theorem carries_processLine (l : InLine) (sid : Json)
    (hs : sid.isFalsy = false) :
    (processLine l sid).sid = sid
    ∧ ∀ e ∈ (processLine l sid).events,
        e.lookup "session_id" = some sid ∨ typeIs e "result" = true := by
  rcases processLine_shape l sid with ⟨sid1, hsid, hfroz, hcls⟩
  have h1 : sid1 = sid := hfroz hs
  subst h1
  refine ⟨hsid, ?_⟩
  intro e he
  rcases hcls with h | ⟨_, h⟩ | ⟨blocks, h⟩ | ⟨r, s2, c, d, h⟩ | ⟨x, h⟩ | ⟨x, h⟩ |
    ⟨fs, _, h⟩ <;> rw [h] at he
  · cases he
  · rcases List.mem_singleton.mp he with rfl
    exact .inl (lookup_sid_msgEvent _ _)
  · exact .inl (carries_processBlocks blocks sid1 e he)
  · rcases List.mem_singleton.mp he with rfl
    exact .inr (typeIs_resultEvent r s2 c d)
  · rcases List.mem_singleton.mp he with rfl
    exact .inl (lookup_sid_errEvent _ _)
  · rcases List.mem_singleton.mp he with rfl
    exact .inl (lookup_sid_sysEvent _ _)
  · rcases List.mem_singleton.mp he with rfl
    exact .inl (lookup_setKey_self _ _ _)

/-- A truthy running id survives the whole read loop, and every frame
except result frames carries exactly it. -/
theorem carries_runLines (ls : List InLine) (sid : Json)
    (fuel : Option Nat) (hs : sid.isFalsy = false) :
    (runLines ls sid fuel).sid = sid
    ∧ ∀ e ∈ (runLines ls sid fuel).events,
        e.lookup "session_id" = some sid ∨ typeIs e "result" = true := by
  induction ls generalizing fuel with
  | nil =>
    by_cases h0 : fuel = some 0
    · rw [runLines_zero [] sid fuel h0]
      exact ⟨rfl, fun e he => absurd he (by simp [RunOut.events])⟩
    · rw [runLines_nil_eq sid fuel h0]
      exact ⟨rfl, fun e he => absurd he (by simp [RunOut.events])⟩
  | cons l rest ih =>
    by_cases h0 : fuel = some 0
    · rw [runLines_zero (l :: rest) sid fuel h0]
      exact ⟨rfl, fun e he => absurd he (by simp [RunOut.events])⟩
    · rcases carries_processLine l sid hs with ⟨hls, hlc⟩
      cases hp : processLine l sid with
      | ok evs sid1 =>
        have hsid1 : sid1 = sid := by
          rw [hp] at hls
          exact hls
        subst hsid1
        rcases runLines_step l rest sid1 fuel h0 evs sid1 hp with ⟨hev, hsd, _⟩
        rcases ih (fuel.map (fun n => n - 1)) with ⟨ihs, ihc⟩
        constructor
        · rw [hsd, ihs]
        · intro e he
          rw [hev] at he
          rcases List.mem_append.mp he with h1 | h2
          · exact hlc e (by rw [hp]; exact h1)
          · exact ihc e h2
      | crash evs sid1 m =>
        have hsid1 : sid1 = sid := by
          rw [hp] at hls
          exact hls
        subst hsid1
        rw [runLines_crash_step l rest sid1 fuel h0 evs sid1 m hp]
        refine ⟨rfl, ?_⟩
        intro e he
        exact hlc e (by rw [hp]; exact he)

/-- C3 amended: when the caller supplies a non-empty resume hint, the
subprocess-reported id never overrides it: every outward frame other
than the init frame and result frames carries exactly the caller
hint (result frames echo the result event session_id field when
present). The subprocess id only becomes the running id when the
caller supplied none or an empty one. -/
theorem C3_amended (req : ClaudeCodeRequest) (tr : Trace) (s : String)
    (hsid : req.session_id = some s) (hne : s ≠ "") :
    ∀ e ∈ (generate req tr).events,
      e = initEvent ∨ typeIs e "result" = true
      ∨ e.lookup "session_id" = some (.str s) := by
  have hinit : sidInit req = .str s := by
    unfold sidInit
    rw [hsid]
  have hfal : (Json.str s).isFalsy = false := by
    show (s == "") = false
    exact beq_eq_false_iff_ne.mpr hne
  intro e he
  rcases hs : tr.spawn with _ | m
  · cases hr : runLines tr.lines (sidInit req) tr.cancelAfter with
    | eof evs sid =>
      have hr2 := hr
      rw [hinit] at hr2
      have hcar := carries_runLines tr.lines (.str s) tr.cancelAfter hfal
      rw [hr2] at hcar
      have hsd : sid = .str s := hcar.1
      subst hsd
      rw [generate_eof_eq req tr evs (.str s) hs hr] at he
      simp only [List.cons_append] at he
      rcases List.mem_cons.mp he with rfl | he2
      · exact .inl rfl
      · rcases List.mem_append.mp he2 with h1 | h2
        · rcases List.mem_append.mp h1 with h3 | h4
          · rcases hcar.2 e h3 with h | h
            · exact .inr (.inr h)
            · exact .inr (.inl h)
          · split at h4
            · rcases List.mem_singleton.mp h4 with rfl
              exact .inr (.inr (lookup_sid_errEvent _ _))
            · cases h4
        · rcases List.mem_singleton.mp h2 with rfl
          exact .inr (.inr (lookup_sid_doneEvent _ _))
    | crashed evs sid m =>
      have hr2 := hr
      rw [hinit] at hr2
      have hcar := carries_runLines tr.lines (.str s) tr.cancelAfter hfal
      rw [hr2] at hcar
      have hsd : sid = .str s := hcar.1
      subst hsd
      rw [generate_crashed_eq req tr evs (.str s) m hs hr] at he
      simp only [List.cons_append] at he
      rcases List.mem_cons.mp he with rfl | he2
      · exact .inl rfl
      · rcases List.mem_append.mp he2 with h1 | h2
        · rcases hcar.2 e h1 with h | h
          · exact .inr (.inr h)
          · exact .inr (.inl h)
        · rcases List.mem_singleton.mp h2 with rfl
          exact .inr (.inr (lookup_sid_errEvent _ _))
    | cancelled evs sid =>
      have hr2 := hr
      rw [hinit] at hr2
      have hcar := carries_runLines tr.lines (.str s) tr.cancelAfter hfal
      rw [hr2] at hcar
      have hsd : sid = .str s := hcar.1
      subst hsd
      rw [generate_cancelled_eq req tr evs (.str s) hs hr] at he
      simp only [List.cons_append] at he
      rcases List.mem_cons.mp he with rfl | he2
      · exact .inl rfl
      · rcases List.mem_append.mp he2 with h1 | h2
        · rcases hcar.2 e h1 with h | h
          · exact .inr (.inr h)
          · exact .inr (.inl h)
        · rcases List.mem_singleton.mp h2 with rfl
          exact .inr (.inr (lookup_sid_cancelledEvent _))
  · rw [generate_spawnFail_eq req tr m hs] at he
    rcases List.mem_cons.mp he with rfl | he2
    · exact .inl rfl
    · rcases List.mem_singleton.mp he2 with rfl
      rw [hinit]
      exact .inr (.inr (lookup_sid_errEvent _ _))

/-- C3 amended witness: the done frame of the hint request with the
S1-reporting subprocess carries the caller hint. -/
theorem C3_amended_witness :
    doneEvent (.str "hint") 9 = initEvent
    ∨ typeIs (doneEvent (.str "hint") 9) "result" = true
    ∨ (doneEvent (.str "hint") 9).lookup "session_id" = some (.str "hint") :=
  C3_amended reqHint trResultS1 "hint" rfl (by decide)
    (doneEvent (.str "hint") 9)
    (by
      rw [show (generate reqHint trResultS1).events
          = [initEvent, resultEvent (.str "") (.str "S1") (.num 0) 3,
             doneEvent (.str "hint") 9] from rfl]
      exact List.mem_cons_of_mem _
        (List.mem_cons_of_mem _ (List.mem_singleton.mpr rfl)))

/-- Every block-loop frame is a message or tool_use frame at the
running id. -/
theorem processBlocks_events_shape (blocks : List Json) (sid : Json) :
    ∀ e ∈ (processBlocks blocks sid).events,
      (∃ x, e = msgEvent x sid) ∨ (∃ x, e = toolUseEvent x sid) := by
  induction blocks with
  | nil => intro e he; cases he
  | cons b rest ih =>
    intro e he
    cases b with
    | obj bf =>
      rcases hbt : (Json.obj bf).lookup "type" with _ | jv
      · rw [show processBlocks (Json.obj bf :: rest) sid = processBlocks rest sid
            from by rw [processBlocks, hbt]] at he
        exact ih e he
      · rcases jv with _ | b2 | n2 | t | a2 | f2
        case str =>
          rw [show processBlocks (Json.obj bf :: rest) sid
              = (if t = "text" then
                   (processBlocks rest sid).consEv
                     (msgEvent (pyGet (Json.obj bf) "text" (.str "")) sid)
                 else if t = "tool_use" then
                   (processBlocks rest sid).consEv
                     (toolUseEvent (pyGet (Json.obj bf) "name" (.str "unknown")) sid)
                 else processBlocks rest sid)
              from by rw [processBlocks, hbt]] at he
          by_cases ht : t = "text"
          · rw [if_pos ht] at he
            rcases mem_consEv he with rfl | he2
            · exact .inl ⟨_, rfl⟩
            · exact ih e he2
          · rw [if_neg ht] at he
            by_cases ht2 : t = "tool_use"
            · rw [if_pos ht2] at he
              rcases mem_consEv he with rfl | he2
              · exact .inr ⟨_, rfl⟩
              · exact ih e he2
            · rw [if_neg ht2] at he
              exact ih e he
        all_goals
          rw [show processBlocks (Json.obj bf :: rest) sid = processBlocks rest sid
              from by rw [processBlocks, hbt]] at he
        all_goals exact ih e he
    | null =>
      rw [show processBlocks (Json.null :: rest) sid
          = .crash [] sid "AttributeError" from rfl] at he
      cases he
    | bool b =>
      rw [show processBlocks (Json.bool b :: rest) sid
          = .crash [] sid "AttributeError" from rfl] at he
      cases he
    | num n =>
      rw [show processBlocks (Json.num n :: rest) sid
          = .crash [] sid "AttributeError" from rfl] at he
      cases he
    | str s =>
      rw [show processBlocks (Json.str s :: rest) sid
          = .crash [] sid "AttributeError" from rfl] at he
      cases he
    | arr xs =>
      rw [show processBlocks (Json.arr xs :: rest) sid
          = .crash [] sid "AttributeError" from rfl] at he
      cases he

/-- The forwarding assignment does not change the type tag. -/
theorem typeIs_setKey (fs : List (String × Json)) (v : Json) (x : String) :
    typeIs ((Json.obj fs).setKey "session_id" v) x = typeIs (Json.obj fs) x := by
  unfold typeIs
  rw [lookup_setKey_ne fs "session_id" v "type" (by decide)]

/-- With a spoof-free line, no frame it yields is init- or
terminal-typed. -/
theorem notSpecial_processLine (l : InLine) (sid : Json)
    (hsp : lineSpoofFree l = true) :
    ∀ e ∈ (processLine l sid).events,
      isInitType e = false ∧ isTerminalType e = false := by
  rcases processLine_shape l sid with ⟨sid1, _, _, hcls⟩
  intro e he
  rcases hcls with h | ⟨_, h⟩ | ⟨blocks, h⟩ | ⟨r, s2, c, d, h⟩ | ⟨x, h⟩ | ⟨x, h⟩ |
    ⟨fs, hfs, h⟩ <;> rw [h] at he
  · cases he
  · rcases List.mem_singleton.mp he with rfl
    exact ⟨rfl, rfl⟩
  · rcases processBlocks_events_shape blocks sid1 e he with ⟨x, rfl⟩ | ⟨x, rfl⟩
    · exact ⟨rfl, rfl⟩
    · exact ⟨rfl, rfl⟩
  · rcases List.mem_singleton.mp he with rfl
    exact ⟨rfl, rfl⟩
  · rcases List.mem_singleton.mp he with rfl
    exact ⟨rfl, rfl⟩
  · rcases List.mem_singleton.mp he with rfl
    exact ⟨rfl, rfl⟩
  · rcases List.mem_singleton.mp he with rfl
    have hsp2 : (typeIs (Json.obj fs) "init" || typeIs (Json.obj fs) "done"
        || typeIs (Json.obj fs) "cancelled") = false := by
      unfold lineSpoofFree at hsp
      rw [hfs] at hsp
      have hsp3 : (!(typeIs (Json.obj fs) "init" || typeIs (Json.obj fs) "done"
          || typeIs (Json.obj fs) "cancelled")) = true := hsp
      cases hv : (typeIs (Json.obj fs) "init" || typeIs (Json.obj fs) "done"
          || typeIs (Json.obj fs) "cancelled") with
      | false => rfl
      | true =>
        rw [hv] at hsp3
        simp at hsp3
    simp only [Bool.or_eq_false_iff] at hsp2
    constructor
    · show typeIs ((Json.obj fs).setKey "session_id" sid1) "init" = false
      rw [typeIs_setKey]
      exact hsp2.1.1
    · show (typeIs ((Json.obj fs).setKey "session_id" sid1) "done"
        || typeIs ((Json.obj fs).setKey "session_id" sid1) "cancelled") = false
      rw [typeIs_setKey, typeIs_setKey]
      simp only [Bool.or_eq_false_iff]
      exact ⟨hsp2.1.2, hsp2.2⟩

/-- With spoof-free lines, no loop frame is init- or terminal-typed. -/
theorem notSpecial_runLines (ls : List InLine) (sid : Json)
    (fuel : Option Nat) :
    spoofFree ls = true →
    ∀ e ∈ (runLines ls sid fuel).events,
      isInitType e = false ∧ isTerminalType e = false := by
  induction ls generalizing sid fuel with
  | nil =>
    intro _ e he
    by_cases h0 : fuel = some 0
    · rw [runLines_zero [] sid fuel h0] at he
      cases he
    · rw [runLines_nil_eq sid fuel h0] at he
      cases he
  | cons l rest ih =>
    intro hsp
    have hl : lineSpoofFree l = true := by
      have := hsp
      simp only [spoofFree, List.all_cons, Bool.and_eq_true] at this
      exact this.1
    have hrest : spoofFree rest = true := by
      have := hsp
      simp only [spoofFree, List.all_cons, Bool.and_eq_true] at this
      exact this.2
    intro e he
    by_cases h0 : fuel = some 0
    · rw [runLines_zero (l :: rest) sid fuel h0] at he
      cases he
    · cases hp : processLine l sid with
      | ok evs sid1 =>
        rw [(runLines_step l rest sid fuel h0 evs sid1 hp).1] at he
        rcases List.mem_append.mp he with h1 | h2
        · exact notSpecial_processLine l sid hl e (by rw [hp]; exact h1)
        · exact ih sid1 (fuel.map (fun n => n - 1)) hrest e h2
      | crash evs sid1 m =>
        rw [runLines_crash_step l rest sid fuel h0 evs sid1 m hp] at he
        exact notSpecial_processLine l sid hl e (by rw [hp]; exact he)

/-- A reached raw line that fails decoding and is not whitespace-only
contributes its stripped text as a message frame of the loop. -/
theorem rawMsg_runLines (ls : List InLine) (l : InLine)
    (hnb : pyStrip l.text ≠ "") (hp : l.parsed = none) :
    ∀ sid : Json, l ∈ ls → (runLines ls sid none).isCrash = false →
    ∃ s, msgEvent (.str (pyStrip l.text)) s ∈ (runLines ls sid none).events := by
  induction ls with
  | nil =>
    intro sid hl _
    cases hl
  | cons a rest ih =>
    intro sid hl hnc
    have h0 : (none : Option Nat) ≠ some 0 := by simp
    cases hpa : processLine a sid with
    | crash evs sid1 m =>
      rw [runLines_crash_step a rest sid none h0 evs sid1 m hpa] at hnc
      simp [RunOut.isCrash] at hnc
    | ok evs sid1 =>
      rcases runLines_step a rest sid none h0 evs sid1 hpa with ⟨hev, _, hcr⟩
      simp only [Option.map_none'] at hev hcr
      rcases List.mem_cons.mp hl with rfl | hl2
      · have hthis : processLine l sid
            = .ok [msgEvent (.str (pyStrip l.text)) sid] sid := by
          unfold processLine
          rw [if_neg hnb, hp]
        rw [hthis] at hpa
        injection hpa with h1 h2
        refine ⟨sid1, ?_⟩
        rw [hev]
        refine List.mem_append.mpr (.inl ?_)
        rw [← h1, ← h2]
        simp
      · have hnc2 : (runLines rest sid1 none).isCrash = false := by
          rw [hcr] at hnc
          exact hnc
        rcases ih sid1 hl2 hnc2 with ⟨s, hmem⟩
        refine ⟨s, ?_⟩
        rw [hev]
        exact List.mem_append.mpr (.inr hmem)

/-- C2 amended: every stdout line that the read loop reaches (the run
is neither cancelled nor crashed by an earlier line), whose stripped
text is non-empty, and which fails JSON decoding, has its stripped
text emitted in a message frame; whitespace-only lines, however, are
skipped without any frame at all, and the emitted text is the stripped
line, not the raw bytes. -/
theorem C2_amended (req : ClaudeCodeRequest) (tr : Trace)
    (hspawn : tr.spawn = none) (hcancel : tr.cancelAfter = none)
    (hcrash : (runLines tr.lines (sidInit req) tr.cancelAfter).isCrash = false)
    (l : InLine) (hl : l ∈ tr.lines)
    (hnb : pyStrip l.text ≠ "") (hp : l.parsed = none) :
    ∃ s, msgEvent (.str (pyStrip l.text)) s ∈ (generate req tr).events := by
  rw [hcancel] at hcrash
  rcases rawMsg_runLines tr.lines l hnb hp (sidInit req) hl hcrash with ⟨s, hmem⟩
  rcases runLines_fuel_none tr.lines (sidInit req) with ⟨evs, sd, hr⟩ |
    ⟨evs, sd, m, hr⟩
  · rw [hr] at hmem
    refine ⟨s, ?_⟩
    rw [generate_eof_eq req tr evs sd hspawn (by rw [hcancel]; exact hr)]
    refine List.mem_append.mpr (.inl (List.mem_append.mpr (.inl ?_)))
    exact List.mem_cons_of_mem _ hmem
  · rw [hr] at hcrash
    simp [RunOut.isCrash] at hcrash

/-- C2 amended witness: one undecodable plain-text line. -/
theorem C2_amended_witness :
    ∃ s, msgEvent (.str (pyStrip "plain output")) s
      ∈ (generate reqHello trRaw).events :=
  C2_amended reqHello trRaw rfl rfl rfl ⟨"plain output", none, 2⟩
    (List.mem_singleton.mpr rfl) (by decide) rfl

/-- The error frame is not init-typed. -/
theorem isInitType_errEvent (x s : Json) : isInitType (errEvent x s) = false := rfl

/-- The error frame is not terminal-typed. -/
theorem isTerminalType_errEvent (x s : Json) :
    isTerminalType (errEvent x s) = false := rfl

/-- The done frame is not init-typed. -/
theorem isInitType_doneEvent (s : Json) (d : Nat) :
    isInitType (doneEvent s d) = false := rfl

/-- The done frame is terminal-typed. -/
theorem isTerminalType_doneEvent (s : Json) (d : Nat) :
    isTerminalType (doneEvent s d) = true := rfl

/-- The cancelled frame is not init-typed. -/
theorem isInitType_cancelledEvent (s : Json) :
    isInitType (cancelledEvent s) = false := rfl

/-- The cancelled frame is terminal-typed. -/
theorem isTerminalType_cancelledEvent (s : Json) :
    isTerminalType (cancelledEvent s) = true := rfl

/-- The init frame is init-typed. -/
theorem isInitType_initEvent : isInitType initEvent = true := rfl

/-- The init frame is not terminal-typed. -/
theorem isTerminalType_initEvent : isTerminalType initEvent = false := rfl

/-- C1 amended: on every spawn-succeeding, crash-free run whose
subprocess does not emit events tagged init, done or cancelled (those
would be forwarded verbatim), the stream starts with exactly one init
frame and ends with exactly one terminal frame (done or cancelled).
On a spawn failure or a handler crash the stream instead ends with an
error frame and no terminal frame at all. -/
theorem C1_amended (req : ClaudeCodeRequest) (tr : Trace)
    (hspawn : tr.spawn = none)
    (hcrash : (runLines tr.lines (sidInit req) tr.cancelAfter).isCrash = false)
    (hsp : spoofFree tr.lines = true) :
    (generate req tr).events.head? = some initEvent
    ∧ (generate req tr).events.countP isInitType = 1
    ∧ (generate req tr).events.countP isTerminalType = 1
    ∧ ((generate req tr).events.getLast?).map isTerminalType = some true := by
  cases hr : runLines tr.lines (sidInit req) tr.cancelAfter with
  | crashed evs sid m =>
    rw [hr] at hcrash
    simp [RunOut.isCrash] at hcrash
  | eof evs sid =>
    have hns := notSpecial_runLines tr.lines (sidInit req) tr.cancelAfter hsp
    rw [hr] at hns
    have hz1 : evs.countP isInitType = 0 := by
      refine List.countP_eq_zero.mpr ?_
      intro e he
      simp [(hns e he).1]
    have hz2 : evs.countP isTerminalType = 0 := by
      refine List.countP_eq_zero.mpr ?_
      intro e he
      simp [(hns e he).2]
    have hA1 : List.countP isInitType
        (if tr.returncode ≠ 0 ∧ tr.stderr ≠ "" then
          [errEvent (.str (pyStrip tr.stderr)) sid] else []) = 0 := by
      split
      · simp [List.countP_cons, isInitType_errEvent]
      · rfl
    have hA2 : List.countP isTerminalType
        (if tr.returncode ≠ 0 ∧ tr.stderr ≠ "" then
          [errEvent (.str (pyStrip tr.stderr)) sid] else []) = 0 := by
      split
      · simp [List.countP_cons, isTerminalType_errEvent]
      · rfl
    rw [generate_eof_eq req tr evs sid hspawn hr]
    refine ⟨rfl, ?_, ?_, ?_⟩
    · rw [List.countP_append, List.countP_append, List.countP_cons, hz1, hA1]
      simp [List.countP_cons, isInitType_initEvent, isInitType_doneEvent]
    · rw [List.countP_append, List.countP_append, List.countP_cons, hz2, hA2]
      simp [List.countP_cons, isTerminalType_initEvent, isTerminalType_doneEvent]
    · rw [List.getLast?_concat]
      simp [isTerminalType_doneEvent]
  | cancelled evs sid =>
    have hns := notSpecial_runLines tr.lines (sidInit req) tr.cancelAfter hsp
    rw [hr] at hns
    have hz1 : evs.countP isInitType = 0 := by
      refine List.countP_eq_zero.mpr ?_
      intro e he
      simp [(hns e he).1]
    have hz2 : evs.countP isTerminalType = 0 := by
      refine List.countP_eq_zero.mpr ?_
      intro e he
      simp [(hns e he).2]
    rw [generate_cancelled_eq req tr evs sid hspawn hr]
    refine ⟨rfl, ?_, ?_, ?_⟩
    · rw [List.countP_append, List.countP_cons, hz1]
      simp [List.countP_cons, isInitType_initEvent, isInitType_cancelledEvent]
    · rw [List.countP_append, List.countP_cons, hz2]
      simp [List.countP_cons, isTerminalType_initEvent,
        isTerminalType_cancelledEvent]
    · rw [List.getLast?_concat]
      simp [isTerminalType_cancelledEvent]

/-- C1 amended witness: the quiet clean run. -/
theorem C1_amended_witness :
    (generate reqHello trEmpty).events.head? = some initEvent
    ∧ (generate reqHello trEmpty).events.countP isInitType = 1
    ∧ (generate reqHello trEmpty).events.countP isTerminalType = 1
    ∧ ((generate reqHello trEmpty).events.getLast?).map isTerminalType
      = some true :=
  C1_amended reqHello trEmpty rfl rfl rfl

/-- C9 amended: every run starts with the init frame; every frame
after it carries a session_id field (nullable); each wire frame is the
data: prefix, the single-line json.dumps of its event object (no raw
newline can occur in it) and a blank line; but the init frame itself
has no session_id field, and a forwarded object lacking a type field
is sent without one. -/
theorem C9_amended (req : ClaudeCodeRequest) (tr : Trace) :
    (generate req tr).events.head? = some initEvent
    ∧ (∀ e ∈ (generate req tr).events.tail, (e.lookup "session_id").isSome = true)
    ∧ (∀ f ∈ wire (generate req tr).events,
        ∃ e ∈ (generate req tr).events, f = sseFrame e)
    ∧ (∀ e : Json, (sseFrame e).data
        = ("data: ").data ++ dumpsL e ++ [Char.ofNat 10, Char.ofNat 10])
    ∧ (∀ e : Json, Char.ofNat 10 ∉ dumpsL e) := by
  refine ⟨?_, ?_, ?_, fun e => rfl, dumpsL_nl⟩
  · rcases hs : tr.spawn with _ | m
    · cases hr : runLines tr.lines (sidInit req) tr.cancelAfter with
      | eof evs sid => rw [generate_eof_eq req tr evs sid hs hr]; rfl
      | crashed evs sid m => rw [generate_crashed_eq req tr evs sid m hs hr]; rfl
      | cancelled evs sid => rw [generate_cancelled_eq req tr evs sid hs hr]; rfl
    · rw [generate_spawnFail_eq req tr m hs]
      rfl
  · intro e he
    rcases hs : tr.spawn with _ | m
    · cases hr : runLines tr.lines (sidInit req) tr.cancelAfter with
      | eof evs sid =>
        rw [generate_eof_eq req tr evs sid hs hr] at he
        simp only [List.cons_append, List.tail_cons] at he
        rcases List.mem_append.mp he with h1 | h2
        · rcases List.mem_append.mp h1 with h3 | h4
          · exact hasSid_runLines tr.lines (sidInit req) tr.cancelAfter e
              (by rw [hr]; exact h3)
          · split at h4
            · rcases List.mem_singleton.mp h4 with rfl
              rw [lookup_sid_errEvent]
              rfl
            · cases h4
        · rcases List.mem_singleton.mp h2 with rfl
          rw [lookup_sid_doneEvent]
          rfl
      | crashed evs sid m =>
        rw [generate_crashed_eq req tr evs sid m hs hr] at he
        simp only [List.cons_append, List.tail_cons] at he
        rcases List.mem_append.mp he with h1 | h2
        · exact hasSid_runLines tr.lines (sidInit req) tr.cancelAfter e
            (by rw [hr]; exact h1)
        · rcases List.mem_singleton.mp h2 with rfl
          rw [lookup_sid_errEvent]
          rfl
      | cancelled evs sid =>
        rw [generate_cancelled_eq req tr evs sid hs hr] at he
        simp only [List.cons_append, List.tail_cons] at he
        rcases List.mem_append.mp he with h1 | h2
        · exact hasSid_runLines tr.lines (sidInit req) tr.cancelAfter e
            (by rw [hr]; exact h1)
        · rcases List.mem_singleton.mp h2 with rfl
          rw [lookup_sid_cancelledEvent]
          rfl
    · rw [generate_spawnFail_eq req tr m hs] at he
      simp only [List.tail_cons] at he
      rcases List.mem_singleton.mp he with rfl
      rw [lookup_sid_errEvent]
      rfl
  · intro f hf
    rcases List.mem_map.mp hf with ⟨e, he, hfe⟩
    exact ⟨e, he, hfe.symm⟩

/-- C9 amended witness: the plain request and the sleeper run. -/
theorem C9_amended_witness :
    (generate reqHello trSleep).events.head? = some initEvent
    ∧ (∀ e ∈ (generate reqHello trSleep).events.tail,
        (e.lookup "session_id").isSome = true)
    ∧ (∀ f ∈ wire (generate reqHello trSleep).events,
        ∃ e ∈ (generate reqHello trSleep).events, f = sseFrame e)
    ∧ (∀ e : Json, (sseFrame e).data
        = ("data: ").data ++ dumpsL e ++ [Char.ofNat 10, Char.ofNat 10])
    ∧ (∀ e : Json, Char.ofNat 10 ∉ dumpsL e) :=
  C9_amended reqHello trSleep

/-- C9 counterexample: the init frame carries no session_id field at
all, and a decoded object with no type field is forwarded to the
client without a type field, refuting that every frame includes both
type and session_id. -/
theorem C9_counterexample :
    (generate reqHello trNoType).events
      = [initEvent, .obj [("foo", .num 1), ("session_id", .null)],
         doneEvent .null 9]
    ∧ initEvent.lookup "session_id" = none
    ∧ (Json.obj [("foo", .num 1), ("session_id", .null)]).lookup "type"
      = none := by
  exact ⟨rfl, rfl, rfl⟩

end Sparky
